import Mathlib

/-!
# H.264 bitmap decompression glue (`libfreerdp/codec/h264.c`)

A shallow embedding of the colour conversion, the planar-to-packed copy, the
access-unit-delimiter stripper, the RGB buffer sizing and the decode
orchestration of `h264.c`, followed by theorems about them.

Conventions of the embedding:

* C `int` values are integers (`Int`); `UINT32` values are integers or
  natural numbers; where the C arithmetic is done in 32 bits the result is
  reduced explicitly (`wrapU32`, `wrapS32`, `% 4294967296`).
* a `BYTE` is a natural number below 256; a byte read from memory is reduced
  modulo 256.
* a block of memory is a function from byte offsets to bytes; a pointer into a
  block is a byte offset.
-/

namespace H264

/-! ## Machine integers -/

/-- Value of a 32-bit unsigned integer: reduction modulo `2^32`. -/
def wrapU32 (x : Int) : Int := x % 4294967296

/-- Value of a 32-bit two's-complement signed integer. -/
def wrapS32 (x : Int) : Int := (x + 2147483648) % 4294967296 - 2147483648

/-! ## Colour conversion -/

/-- The C function `clip` (h264.c, lines 35-40): saturate an `int` to a `BYTE`. -/
def clip (x : Int) : Nat :=
  if x < 0 then 0
  else if x > 255 then 255
  else x.toNat % 256

/-- Modelled from the spec: the macro `RGB32` of `freerdp/codec/color.h` is not
among the sources.  The spec describes the result as a 32-bit word holding
red, green, blue and an unused byte; the packing used here is the XRGB one,
`(r << 16) | (g << 8) | b`. -/
def RGB32 (r g b : Nat) : Nat := (r <<< 16) ||| (g <<< 8) ||| b

/-- The C function `YUV_to_RGB` (h264.c, lines 42-103) with the active
preprocessor branch (`USE_GRAY_SCALE` is 0, third coefficient set).
`>>>` on `Int` is the arithmetic right shift. -/
def YUV_to_RGB (Y U V : Nat) : Nat :=
  let C : Int := Y
  let D : Int := (U : Int) - 128
  let E : Int := (V : Int) - 128
  let R := clip ((256 * C + 403 * E + 128) >>> (8 : Nat))
  let G := clip ((256 * C - 48 * D - 120 * E + 128) >>> (8 : Nat))
  let B := clip ((256 * C + 475 * D + 128) >>> (8 : Nat))
  RGB32 R G B

/-! ## Memory -/

/-- A block of memory, addressed by byte offset.  Offsets are integers because
the C code forms them with signed `int` arithmetic. -/
abbrev Mem := Int → Nat

/-- Read of one `BYTE` at offset `p`. -/
def readByte (m : Mem) (p : Int) : Nat := m p % 256

/-- Store of a `UINT32` at byte offset `p` (`*((UINT32*) p) = w`), least
significant byte first. -/
def store32 (m : Mem) (p : Int) (w : Nat) : Mem := fun a =>
  if a = p then w % 256
  else if a = p + 1 then w / 256 % 256
  else if a = p + 2 then w / 65536 % 256
  else if a = p + 3 then w / 16777216 % 256
  else m a

/-- Load of a `UINT32` at byte offset `p`, least significant byte first. -/
def load32 (m : Mem) (p : Int) : Nat :=
  readByte m p + 256 * readByte m (p + 1) + 65536 * readByte m (p + 2)
    + 16777216 * readByte m (p + 3)

/-! ## Planar YUV 4:2:0 to packed XRGB copy -/

/-- The local variables of `freerdp_image_copy_yuv420p_to_xrgb` that change
during the walk, together with the destination memory.  The source pointers
`pY`, `pU`, `pV`, `pUv`, `pVv` are byte offsets into their planes,
`pDstPixel8` is a byte offset from `pDstData`; the flags `temp1`, `temp2`
(`int` 0/1 in C) are booleans. -/
structure CopyState where
  dst : Mem
  pDstPixel8 : Int
  pY : Int
  pU : Int
  pV : Int
  pUv : Int
  pVv : Int
  temp1 : Bool
  temp2 : Bool

/-- Body of the inner `for (x ...)` loop (h264.c, lines 205-216). -/
def colStep (pSrcData : Fin 3 → Mem) (s : CopyState) : CopyState :=
  let s1 : CopyState :=
    { s with
      dst := store32 s.dst s.pDstPixel8
        (YUV_to_RGB (readByte (pSrcData 0) s.pY) (readByte (pSrcData 1) s.pU)
          (readByte (pSrcData 2) s.pV))
      pDstPixel8 := s.pDstPixel8 + 4
      pY := s.pY + 1 }
  if s1.temp1 then
    { s1 with temp1 := false, pU := s1.pU + 1, pV := s1.pV + 1 }
  else
    { s1 with temp1 := true }

/-- Body of the outer `for (y ...)` loop (h264.c, lines 203-231): the inner
loop runs `nWidth` times (not at all when `nWidth <= 0`), then the row
boundary adjustments are made. -/
def rowStep (pSrcData : Fin 3 → Mem) (nSrcStep : Fin 2 → Int) (nDstStep nWidth : Int)
    (s : CopyState) : CopyState :=
  let s1 := (colStep pSrcData)^[nWidth.toNat] s
  let s2 : CopyState :=
    { s1 with
      pDstPixel8 := s1.pDstPixel8 + (nDstStep - nWidth * 4)
      pY := s1.pY + (nSrcStep 0 - nWidth) }
  if s2.temp2 then
    let pU := s2.pU + (nSrcStep 1 - Int.tdiv nWidth 2)
    let pV := s2.pV + (nSrcStep 1 - Int.tdiv nWidth 2)
    { s2 with temp2 := false, pU := pU, pV := pV, pUv := pU, pVv := pV }
  else
    { s2 with temp2 := true, pU := s2.pUv, pV := s2.pVv }

/-- State of the walk before the first row (h264.c, lines 193-199). -/
def copyInit (pDstData : Mem) (nDstStep nXDst nYDst : Int) : CopyState :=
  { dst := pDstData
    pDstPixel8 := nYDst * nDstStep + nXDst * 4
    pY := 0, pU := 0, pV := 0, pUv := 0, pVv := 0
    temp1 := false, temp2 := false }

/-- The C function `freerdp_image_copy_yuv420p_to_xrgb` (h264.c, lines
187-235).  Returns the C return value and the destination memory after the
call.  `nXSrc` and `nYSrc` are not used by the C code. -/
def freerdp_image_copy_yuv420p_to_xrgb (pDstData : Mem) (nDstStep nXDst nYDst : Int)
    (nWidth nHeight : Int) (pSrcData : Fin 3 → Mem) (nSrcStep : Fin 2 → Int)
    (_nXSrc _nYSrc : Int) : Int × Mem :=
  let s := (rowStep pSrcData nSrcStep nDstStep nWidth)^[nHeight.toNat]
    (copyInit pDstData nDstStep nXDst nYDst)
  (1, s.dst)

/-- Stores of the first `n` pixels of one destination row starting at byte
offset `p`; pixel `i` receives `f i`. -/
def storeRow (m : Mem) (p : Int) (f : Nat → Nat) : Nat → Mem
  | 0 => m
  | n + 1 => store32 (storeRow m p f n) (p + 4 * (n : Int)) (f n)

/-- The pixel that direct indexing assigns to destination position `(x, y)`:
luma at `(x, y)`, chroma at `(x/2, y/2)`. -/
def pixelDirect (pSrcData : Fin 3 → Mem) (nSrcStep : Fin 2 → Int) (x y : Nat) : Nat :=
  YUV_to_RGB (readByte (pSrcData 0) ((y : Int) * nSrcStep 0 + x))
    (readByte (pSrcData 1) (((y / 2 : Nat) : Int) * nSrcStep 1 + ((x / 2 : Nat) : Int)))
    (readByte (pSrcData 2) (((y / 2 : Nat) : Int) * nSrcStep 1 + ((x / 2 : Nat) : Int)))

/-- Reference copy by direct indexing, as the spec describes it: rows
`0 .. h-1` in order, in each row columns `0 .. w-1` in order, pixel `(x, y)`
stored at byte offset `(nYDst + y) * nDstStep + (nXDst + x) * 4`. -/
def copyDirect (pDstData : Mem) (nDstStep nXDst nYDst : Int) (w : Nat)
    (pSrcData : Fin 3 → Mem) (nSrcStep : Fin 2 → Int) : Nat → Mem
  | 0 => pDstData
  | h + 1 =>
    storeRow (copyDirect pDstData nDstStep nXDst nYDst w pSrcData nSrcStep h)
      ((nYDst + (h : Int)) * nDstStep + nXDst * 4) (pixelDirect pSrcData nSrcStep · h) w

/-! ## Access-unit-delimiter stripper -/

/-- Outcome of `h264_strip_nal_unit_au_delimiter`: the returned pointer as a
byte offset from `pSrcData`, the value of `*pSrcSize` after the call, and the
offsets of the bytes the call read, in program order. -/
structure StripResult where
  data : Int
  size : Nat
  reads : List Int

/-- The `while (size > 0)` loop of `h264_strip_nal_unit_au_delimiter` (h264.c,
lines 247-254), by recursion on `size`.  Returns `data`, `size` and the read
log on leaving the loop. -/
def scanZeros (pSrcData : Mem) : Nat → Int → List Int → Int × Nat × List Int
  | 0, data, reads => (data, 0, reads)
  | size + 1, data, reads =>
    if readByte pSrcData data ≠ 0 then (data, size + 1, reads ++ [data])
    else scanZeros pSrcData size (data + 1) (reads ++ [data])

/-- The C function `h264_strip_nal_unit_au_delimiter` (h264.c, lines 237-283).
`SrcSize` is the value of `*pSrcSize` on entry; `UINT32` decrements wrap
modulo `2^32`.  The `printf` of the delimiter branch is not modelled. -/
def h264_strip_nal_unit_au_delimiter (pSrcData : Mem) (SrcSize : Nat) : StripResult :=
  let (data, size, reads) := scanZeros pSrcData SrcSize 0 []
  let reads := reads ++ [data]
  if readByte pSrcData data ≠ 1 then
    { data := 0, size := SrcSize, reads := reads }
  else
    let data := data + 1
    let size := (size + 4294967295) % 4294967296
    let reads := reads ++ [data, data, data]
    let forbidden_zero_bit := readByte pSrcData data >>> 7
    let nal_unit_type := readByte pSrcData data &&& 0x1F
    if forbidden_zero_bit ≠ 0 then
      { data := 0, size := SrcSize, reads := reads }
    else if nal_unit_type = 9 then
      { data := data + 2, size := (size + 4294967294) % 4294967296, reads := reads }
    else
      { data := 0, size := SrcSize, reads := reads }

/-- Memory holding the bytes of `l` at offsets `0 .. l.length - 1` and `fill`
everywhere else. -/
def memOfList (l : List Nat) (fill : Nat) : Mem := fun a =>
  if a < 0 then fill else l.getD a.toNat fill

/-! ## Decoder context and RGB buffer sizing -/

/-- Modelled from the spec: `struct _H264_CONTEXT` is declared in
`freerdp/codec/h264.h`, which is not among the sources.  The fields are the
ones `h264.c` uses, named as there; the spec calls them `isCompressor`,
`frameBuffer` (`data`), `capacityBytes` (`size`), `width`, `height`,
`scanline` and `externalDecoderHandle` (`pDecoder`).  `size`, `width` and
`height` are 32-bit unsigned and `scanline` is a 32-bit signed integer.
Pointers are natural numbers, 0 being `NULL`.  `frame` is the content of the
block `data` points to (without meaning while `data` is `NULL`). -/
structure H264_CONTEXT where
  Compressor : Bool
  data : Nat
  size : Int
  width : Int
  height : Int
  scanline : Int
  pDecoder : Nat
  frame : Mem

/-- The C function `h264_prepare_rgb_buffer` (h264.c, lines 166-185).
`realloc old n` is the pointer the allocator returns for a request of `n`
bytes (0 on failure); a successful `realloc` keeps the content of the block.
Returns the C return value and the context after the call. -/
def h264_prepare_rgb_buffer (realloc : Nat → Int → Nat) (h264 : H264_CONTEXT)
    (width height : Int) : Int × H264_CONTEXT :=
  let h1 : H264_CONTEXT := { h264 with width := wrapU32 width }
  let h2 : H264_CONTEXT := { h1 with height := wrapU32 height }
  let h3 : H264_CONTEXT := { h2 with scanline := wrapS32 (h2.width * 4) }
  let size : Int := wrapU32 (h3.scanline * h3.height)
  let h4 : H264_CONTEXT :=
    if size > h3.size then { h3 with size := size, data := realloc h3.data size } else h3
  if h4.data = 0 then (-1, h4) else (1, h4)

/-- A context as it is after a 256x256 buffer has been prepared: a non-null
buffer of `256 * 4 * 256 = 262144` bytes. -/
def context256 : H264_CONTEXT :=
  { Compressor := false, data := 4096, size := 262144, width := 256, height := 256,
    scanline := 1024, pDecoder := 1, frame := fun _ => 0 }

/-- An allocator that always succeeds and moves the block. -/
def movingRealloc : Nat → Int → Nat := fun old _ => old + 65536

/-! ## Decode orchestration -/

/-- Modelled from the spec: the external decoder (the OpenH264 `ISVCDecoder`
of `wels/codec_api.h`) is not among the sources.  A call of `DecodeFrame2`
yields a status and fills the out-parameters `pYUVData` and `sBufferInfo`:
three plane pointers (0 being `NULL`) with the planes they point to, the
buffer-readiness indicator, and the reported width, height, pixel format and
the luma and chroma strides. -/
structure DecodeOutput where
  state : Int
  pYUVData : Fin 3 → Nat
  planes : Fin 3 → Mem
  iBufferStatus : Int
  iWidth : Int
  iHeight : Int
  iFormat : Int
  iStride : Fin 2 → Int

/-- Modelled from the spec: the constant `videoFormatI420` of OpenH264's
`wels/codec_def.h`, the single supported planar format. -/
def videoFormatI420 : Int := 23

/-- The out-parameters before the first decoder call: null plane pointers and
a zeroed `sBufferInfo` (h264.c, lines 346-350). -/
def zeroOutput : DecodeOutput :=
  { state := 0, pYUVData := fun _ => 0, planes := fun _ _ => 0, iBufferStatus := 0,
    iWidth := 0, iHeight := 0, iFormat := 0, iStride := fun _ => 0 }

/-- The two consecutive decoder calls of `h264_decompress` (h264.c, lines
352-365): one with the stripped input, one flush call with a null input.
`DecodeFrame2 s src out` is the decoder's new state and the status and
out-parameters it leaves, given its state, the input span (`none` for `NULL`)
and the out-parameters on entry.  The status of the first call is
overwritten by the second. -/
def decodeTwice {σ : Type} (DecodeFrame2 : σ → Option (Mem × Nat) → DecodeOutput → σ × DecodeOutput)
    (decoder : σ) (pSrcData : Mem) (SrcSize : Nat) : σ × DecodeOutput :=
  let r1 := DecodeFrame2 decoder (some (pSrcData, SrcSize)) zeroOutput
  DecodeFrame2 r1.1 none r1.2

/-- Outcome of `h264_decompress`: the C return value, the context and the
decoder state after the call, and the value of `*ppDstData`. -/
structure DecompressResult (σ : Type) where
  ret : Int
  h264 : Option H264_CONTEXT
  decoder : σ
  ppDstData : Nat

/-- The C function `h264_decompress` (h264.c, lines 285-494) as built with
`WITH_OPENH264`.  `h264` is `none` for a null context; `ppDstData` is the
value of `*ppDstData` on entry; `malloc n` is the pointer returned for a
request of `n` bytes (0 on failure).  The frame dumps are not modelled
(`g_H264DumpFrames` is never set), nor is the frame counter. -/
def h264_decompress {σ : Type}
    (DecodeFrame2 : σ → Option (Mem × Nat) → DecodeOutput → σ × DecodeOutput)
    (malloc : Int → Nat) (realloc : Nat → Int → Nat)
    (h264 : Option H264_CONTEXT) (decoder : σ) (pSrcData : Mem) (SrcSize : Nat)
    (ppDstData : Nat) (_DstFormat : Int) (_nDstStep _nXDst _nYDst nWidth nHeight : Int) :
    DecompressResult σ :=
  match h264 with
  | none => { ret := -1, h264 := none, decoder := decoder, ppDstData := ppDstData }
  | some ctx =>
    if ctx.pDecoder = 0 then
      { ret := -1, h264 := some ctx, decoder := decoder, ppDstData := ppDstData }
    else
      let strip := h264_strip_nal_unit_au_delimiter pSrcData SrcSize
      let UncompressedSize := wrapU32 (nWidth * nHeight * 4)
      if UncompressedSize = 0 then
        { ret := -1, h264 := some ctx, decoder := decoder, ppDstData := ppDstData }
      else
        let pDstData := if ppDstData = 0 then malloc UncompressedSize else ppDstData
        if pDstData = 0 then
          { ret := -1, h264 := some ctx, decoder := decoder, ppDstData := ppDstData }
        else
          let dec := decodeTwice DecodeFrame2 decoder (fun i => pSrcData (strip.data + i))
            strip.size
          let out := dec.2
          if out.state ≠ 0 then
            { ret := -1, h264 := some ctx, decoder := dec.1, ppDstData := pDstData }
          else if out.pYUVData 0 = 0 ∨ out.pYUVData 1 = 0 ∨ out.pYUVData 2 = 0 then
            { ret := -1, h264 := some ctx, decoder := dec.1, ppDstData := pDstData }
          else if out.iBufferStatus ≠ 1 then
            { ret := -1, h264 := some ctx, decoder := dec.1, ppDstData := pDstData }
          else if out.iFormat ≠ videoFormatI420 then
            { ret := -1, h264 := some ctx, decoder := dec.1, ppDstData := pDstData }
          else
            let prep := h264_prepare_rgb_buffer realloc ctx out.iWidth out.iHeight
            if prep.1 < 0 then
              { ret := -1, h264 := some prep.2, decoder := dec.1, ppDstData := pDstData }
            else
              let copy := freerdp_image_copy_yuv420p_to_xrgb prep.2.frame prep.2.scanline 0 0
                (wrapS32 prep.2.width) (wrapS32 prep.2.height) out.planes out.iStride 0 0
              { ret := 1, h264 := some { prep.2 with frame := copy.2 }, decoder := dec.1,
                ppDstData := pDstData }

/-- A decoder that on every call reports a ready I420 frame of the given
width and height with luma stride `w` and chroma stride `w / 2`, whose plane
byte at offset `i` is `i mod 256`. -/
def constDecoder (w h : Int) : Unit → Option (Mem × Nat) → DecodeOutput → Unit × DecodeOutput :=
  fun _ _ _ =>
    ((), { state := 0, pYUVData := fun _ => 8192, planes := fun _ i => i.toNat % 256,
           iBufferStatus := 1, iWidth := w, iHeight := h, iFormat := videoFormatI420,
           iStride := fun k => if k = 0 then w else Int.tdiv w 2 })

/-- What the decoder reports to `h264_decompress` for the input span
`pSrcData`, `SrcSize`: the out-parameters after the two calls on the stripped
span. -/
def reportedOutput {σ : Type}
    (DecodeFrame2 : σ → Option (Mem × Nat) → DecodeOutput → σ × DecodeOutput)
    (decoder : σ) (pSrcData : Mem) (SrcSize : Nat) : DecodeOutput :=
  (decodeTwice DecodeFrame2 decoder
    (fun i => pSrcData ((h264_strip_nal_unit_au_delimiter pSrcData SrcSize).data + i))
    (h264_strip_nal_unit_au_delimiter pSrcData SrcSize).size).2

/-! ## Reference copies and call sequences used in the later theorems -/

/-- Stores of the rows `0 .. h-1` of a `w` pixels wide rectangle, in order,
pixel `(x, y)` receiving `pix x y` at byte offset
`(nYDst + y) * nDstStep + (nXDst + x) * 4`. -/
def copyPixels (pDstData : Mem) (nDstStep nXDst nYDst : Int) (w : Nat)
    (pix : Nat → Nat → Nat) : Nat → Mem
  | 0 => pDstData
  | h + 1 =>
    storeRow (copyPixels pDstData nDstStep nXDst nYDst w pix h)
      ((nYDst + (h : Int)) * nDstStep + nXDst * 4) (pix · h) w

/-- The pixel that the walk assigns to destination position `(x, y)` when the
width is odd: luma at `(x, y)`, chroma at plane index
`(y / 2) * (nSrcStep[1] + 1) + (x + y mod 2) / 2`. -/
def pixelOddWidth (pSrcData : Fin 3 → Mem) (nSrcStep : Fin 2 → Int) (x y : Nat) : Nat :=
  YUV_to_RGB (readByte (pSrcData 0) ((y : Int) * nSrcStep 0 + x))
    (readByte (pSrcData 1)
      (((y / 2 : Nat) : Int) * (nSrcStep 1 + 1) + (((x + y % 2) / 2 : Nat) : Int)))
    (readByte (pSrcData 2)
      (((y / 2 : Nat) : Int) * (nSrcStep 1 + 1) + (((x + y % 2) / 2 : Nat) : Int)))

/-- An allocator whose every request fails. -/
def failingRealloc : Nat → Int → Nat := fun _ _ => 0

/-- One call on a context: `h264_prepare_rgb_buffer` or `h264_decompress`,
with its arguments and the behaviour of the allocator during the call. -/
inductive Call where
  | prepare (realloc : Nat → Int → Nat) (width height : Int)
  | decompress (malloc : Int → Nat) (realloc : Nat → Int → Nat) (pSrcData : Mem)
      (SrcSize : Nat) (ppDstData : Nat) (DstFormat nDstStep nXDst nYDst nWidth nHeight : Int)

/-- Context and decoder state after one call. -/
def runCall {σ : Type}
    (DecodeFrame2 : σ → Option (Mem × Nat) → DecodeOutput → σ × DecodeOutput) :
    H264_CONTEXT × σ → Call → H264_CONTEXT × σ
  | (c, d), Call.prepare realloc width height =>
    ((h264_prepare_rgb_buffer realloc c width height).2, d)
  | (c, d), Call.decompress malloc realloc pSrcData SrcSize ppDstData DstFormat nDstStep
      nXDst nYDst nWidth nHeight =>
    ((h264_decompress DecodeFrame2 malloc realloc (some c) d pSrcData SrcSize ppDstData
        DstFormat nDstStep nXDst nYDst nWidth nHeight).h264.getD c,
      (h264_decompress DecodeFrame2 malloc realloc (some c) d pSrcData SrcSize ppDstData
        DstFormat nDstStep nXDst nYDst nWidth nHeight).decoder)

/-- Context and decoder state after a finite sequence of calls. -/
def runCalls {σ : Type}
    (DecodeFrame2 : σ → Option (Mem × Nat) → DecodeOutput → σ × DecodeOutput)
    (s : H264_CONTEXT × σ) (calls : List Call) : H264_CONTEXT × σ :=
  calls.foldl (runCall DecodeFrame2) s

/-! ## Colour conversion: theorems -/

theorem clip_lt (x : Int) : clip x < 256 := by
  unfold clip; split_ifs <;> omega

theorem clip_eq (x : Int) : (clip x : Int) = max 0 (min 255 x) := by
  unfold clip; split_ifs <;> omega

theorem RGB32_eq (r g b : Nat) (hg : g < 256) (hb : b < 256) :
    RGB32 r g b = r * 65536 + g * 256 + b := by
  unfold RGB32
  have h1 : g <<< 8 ||| b = g * 256 + b := by
    rw [Nat.shiftLeft_eq, Nat.mul_comm, ← Nat.mul_add_lt_is_or (show b < 2 ^ 8 by omega)]
  have h2 : r <<< 16 ||| (g * 256 + b) = r * 65536 + (g * 256 + b) := by
    rw [Nat.shiftLeft_eq, Nat.mul_comm,
      ← Nat.mul_add_lt_is_or (show g * 256 + b < 2 ^ 16 by omega)]
  rw [Nat.lor_assoc, h1, h2]; omega

theorem RGB32_lt (r g b : Nat) (hr : r < 256) (hg : g < 256) (hb : b < 256) :
    RGB32 r g b < 4294967296 := by
  rw [RGB32_eq r g b hg hb]; omega

theorem YUV_to_RGB_lt (Y U V : Nat) : YUV_to_RGB Y U V < 4294967296 := by
  unfold YUV_to_RGB
  exact RGB32_lt _ _ _ (clip_lt _) (clip_lt _) (clip_lt _)

/-- C1: for all bytes `Y`, `U`, `V`, `YUV_to_RGB Y U V` is the packed word
`RGB32 R G B` whose components are
`R = clamp (floor ((256*Y + 403*(V-128) + 128) / 256))`,
`G = clamp (floor ((256*Y - 48*(U-128) - 120*(V-128) + 128) / 256))`,
`B = clamp (floor ((256*Y + 475*(U-128) + 128) / 256))`, where `clamp`
saturates to `[0, 255]`; the red, green and blue components are the bytes at
bits 16-23, 8-15 and 0-7 of the word and the top byte is zero. -/
theorem YUV_to_RGB_components (Y U V : Nat) (_hY : Y < 256) (_hU : U < 256) (_hV : V < 256) :
    ∃ R G B : Nat,
      (R : Int) = max 0 (min 255 (Int.fdiv (256 * Y + 403 * ((V : Int) - 128) + 128) 256)) ∧
      (G : Int) = max 0 (min 255
        (Int.fdiv (256 * Y - 48 * ((U : Int) - 128) - 120 * ((V : Int) - 128) + 128) 256)) ∧
      (B : Int) = max 0 (min 255 (Int.fdiv (256 * Y + 475 * ((U : Int) - 128) + 128) 256)) ∧
      YUV_to_RGB Y U V = RGB32 R G B ∧
      (YUV_to_RGB Y U V >>> 16) % 256 = R ∧
      (YUV_to_RGB Y U V >>> 8) % 256 = G ∧
      YUV_to_RGB Y U V % 256 = B ∧
      YUV_to_RGB Y U V >>> 24 = 0 := by
  refine ⟨clip ((256 * (Y : Int) + 403 * ((V : Int) - 128) + 128) >>> (8 : Nat)),
    clip ((256 * (Y : Int) - 48 * ((U : Int) - 128) - 120 * ((V : Int) - 128) + 128)
      >>> (8 : Nat)),
    clip ((256 * (Y : Int) + 475 * ((U : Int) - 128) + 128) >>> (8 : Nat)),
    ?_, ?_, ?_, rfl, ?_⟩
  · rw [clip_eq, Int.shiftRight_eq_div_pow, Int.fdiv_eq_ediv _ (by decide)]; rfl
  · rw [clip_eq, Int.shiftRight_eq_div_pow, Int.fdiv_eq_ediv _ (by decide)]; rfl
  · rw [clip_eq, Int.shiftRight_eq_div_pow, Int.fdiv_eq_ediv _ (by decide)]; rfl
  · have e : YUV_to_RGB Y U V
        = RGB32 (clip ((256 * (Y : Int) + 403 * ((V : Int) - 128) + 128) >>> (8 : Nat)))
          (clip ((256 * (Y : Int) - 48 * ((U : Int) - 128) - 120 * ((V : Int) - 128) + 128)
            >>> (8 : Nat)))
          (clip ((256 * (Y : Int) + 475 * ((U : Int) - 128) + 128) >>> (8 : Nat))) := rfl
    rw [e, RGB32_eq _ _ _ (clip_lt _) (clip_lt _)]
    have h1 := clip_lt ((256 * (Y : Int) + 403 * ((V : Int) - 128) + 128) >>> (8 : Nat))
    have h2 := clip_lt
      ((256 * (Y : Int) - 48 * ((U : Int) - 128) - 120 * ((V : Int) - 128) + 128) >>> (8 : Nat))
    have h3 := clip_lt ((256 * (Y : Int) + 475 * ((U : Int) - 128) + 128) >>> (8 : Nat))
    simp only [Nat.shiftRight_eq_div_pow]
    refine ⟨?_, ?_, ?_, ?_⟩ <;> omega

/-- Witness of C1 at `Y = 200`, `U = 90`, `V = 240`. -/
theorem YUV_to_RGB_components_witness :
    ∃ R G B : Nat,
      (R : Int) = max 0 (min 255
        (Int.fdiv (256 * (200 : Nat) + 403 * (((240 : Nat) : Int) - 128) + 128) 256)) ∧
      (G : Int) = max 0 (min 255
        (Int.fdiv (256 * (200 : Nat) - 48 * (((90 : Nat) : Int) - 128)
          - 120 * (((240 : Nat) : Int) - 128) + 128) 256)) ∧
      (B : Int) = max 0 (min 255
        (Int.fdiv (256 * (200 : Nat) + 475 * (((90 : Nat) : Int) - 128) + 128) 256)) ∧
      YUV_to_RGB 200 90 240 = RGB32 R G B ∧
      (YUV_to_RGB 200 90 240 >>> 16) % 256 = R ∧
      (YUV_to_RGB 200 90 240 >>> 8) % 256 = G ∧
      YUV_to_RGB 200 90 240 % 256 = B ∧
      YUV_to_RGB 200 90 240 >>> 24 = 0 :=
  YUV_to_RGB_components 200 90 240 (by decide) (by decide) (by decide)

/-! ## The flip-flop walk -/

/-- Effect of `n` iterations of the inner loop: the destination and luma
pointers advance by one pixel per column, the chroma pointers by one sample
every other column, the phase being given by `temp1` on entry. -/
theorem colStep_iterate (P : Fin 3 → Mem) (n : Nat) (s : CopyState) :
    ((colStep P)^[n] s).pDstPixel8 = s.pDstPixel8 + 4 * (n : Int) ∧
    ((colStep P)^[n] s).pY = s.pY + (n : Int) ∧
    ((colStep P)^[n] s).pU = s.pU + (((n + s.temp1.toNat) / 2 : Nat) : Int) ∧
    ((colStep P)^[n] s).pV = s.pV + (((n + s.temp1.toNat) / 2 : Nat) : Int) ∧
    ((colStep P)^[n] s).pUv = s.pUv ∧
    ((colStep P)^[n] s).pVv = s.pVv ∧
    ((colStep P)^[n] s).temp1 = decide ((n + s.temp1.toNat) % 2 = 1) ∧
    ((colStep P)^[n] s).temp2 = s.temp2 ∧
    ((colStep P)^[n] s).dst = storeRow s.dst s.pDstPixel8
      (fun i => YUV_to_RGB (readByte (P 0) (s.pY + (i : Int)))
        (readByte (P 1) (s.pU + (((i + s.temp1.toNat) / 2 : Nat) : Int)))
        (readByte (P 2) (s.pV + (((i + s.temp1.toNat) / 2 : Nat) : Int)))) n := by
  induction n with
  | zero =>
    obtain ⟨d, pD, pY, pU, pV, pUv, pVv, t1, t2⟩ := s
    cases t1 <;> simp [storeRow]
  | succ n ih =>
    rw [Function.iterate_succ_apply']
    generalize (colStep P)^[n] s = r at ih ⊢
    obtain ⟨d, pD, pY, pU, pV, pUv, pVv, t1, t2⟩ := r
    obtain ⟨h1, h2, h3, h4, h5, h6, h7, h8, h9⟩ := ih
    simp only at h1 h2 h3 h4 h5 h6 h7 h8 h9
    subst h1 h2 h3 h4 h5 h6 h8 h9
    cases t1
    · have hp : ¬ (n + s.temp1.toNat) % 2 = 1 := by
        intro h; rw [decide_eq_true h] at h7; exact Bool.noConfusion h7
      simp only [colStep, storeRow, Bool.false_eq_true, if_false, if_true]
      refine ⟨by push_cast; ring, by push_cast; ring, ?_, ?_, trivial, trivial, ?_, trivial,
        trivial⟩
      · simp; omega
      · simp; omega
      · simp; omega
    · have hp : (n + s.temp1.toNat) % 2 = 1 := by
        by_contra h; rw [decide_eq_false h] at h7; exact Bool.noConfusion h7
      simp only [colStep, storeRow, Bool.false_eq_true, if_false, if_true]
      refine ⟨by push_cast; ring, by push_cast; ring, ?_, ?_, trivial, trivial, ?_, trivial,
        trivial⟩
      · simp; omega
      · simp; omega
      · simp; omega

theorem tdiv_two_natCast (w : Nat) : Int.tdiv (w : Int) 2 = ((w / 2 : Nat) : Int) := by
  have h := Int.ofNat_tdiv w 2
  rw [h]; rfl

/-- Effect of `k` iterations of the outer loop when the width is even: every
row leaves the column flag clear, so row `y` starts at luma offset
`y * nSrcStep[0]` and chroma offset `(y / 2) * nSrcStep[1]`, and the
destination holds the result of the reference copy of the first `k` rows. -/
theorem rowStep_iterate_even (P : Fin 3 → Mem) (S : Fin 2 → Int) (d : Mem)
    (step nX nY : Int) (w : Nat) (hw : w % 2 = 0) (k : Nat) :
    ((rowStep P S step w)^[k] (copyInit d step nX nY)).pDstPixel8
      = (nY + (k : Int)) * step + nX * 4 ∧
    ((rowStep P S step w)^[k] (copyInit d step nX nY)).pY = (k : Int) * S 0 ∧
    ((rowStep P S step w)^[k] (copyInit d step nX nY)).pU = ((k / 2 : Nat) : Int) * S 1 ∧
    ((rowStep P S step w)^[k] (copyInit d step nX nY)).pV = ((k / 2 : Nat) : Int) * S 1 ∧
    ((rowStep P S step w)^[k] (copyInit d step nX nY)).pUv = ((k / 2 : Nat) : Int) * S 1 ∧
    ((rowStep P S step w)^[k] (copyInit d step nX nY)).pVv = ((k / 2 : Nat) : Int) * S 1 ∧
    ((rowStep P S step w)^[k] (copyInit d step nX nY)).temp1 = false ∧
    ((rowStep P S step w)^[k] (copyInit d step nX nY)).temp2 = decide (k % 2 = 1) ∧
    ((rowStep P S step w)^[k] (copyInit d step nX nY)).dst
      = copyDirect d step nX nY w P S k := by
  induction k with
  | zero => simp [copyInit, copyDirect]
  | succ k ih =>
    rw [Function.iterate_succ_apply']
    generalize (rowStep P S step w)^[k] (copyInit d step nX nY) = r at ih ⊢
    have hc := colStep_iterate P w r
    obtain ⟨d0, pD, pY, pU, pV, pUv, pVv, t1, t2⟩ := r
    obtain ⟨h1, h2, h3, h4, h5, h6, h7, h8, h9⟩ := ih
    simp only at h1 h2 h3 h4 h5 h6 h7 h8 h9
    subst h1 h2 h3 h4 h5 h6 h7 h9
    simp only [rowStep, Int.toNat_ofNat, tdiv_two_natCast]
    generalize (colStep P)^[w] _ = s1 at hc ⊢
    obtain ⟨d1, qD, qY, qU, qV, qUv, qVv, u1, u2⟩ := s1
    obtain ⟨c1, c2, c3, c4, c5, c6, c7, c8, c9⟩ := hc
    simp only [Bool.toNat_false, Nat.add_zero] at c1 c2 c3 c4 c5 c6 c7 c8 c9
    subst c1 c2 c3 c4 c5 c6 c7 c8 c9
    have hdst : storeRow (copyDirect d step nX nY w P S k) ((nY + (k : Int)) * step + nX * 4)
        (fun i => YUV_to_RGB (readByte (P 0) ((k : Int) * S 0 + (i : Int)))
          (readByte (P 1) (((k / 2 : Nat) : Int) * S 1 + ((i / 2 : Nat) : Int)))
          (readByte (P 2) (((k / 2 : Nat) : Int) * S 1 + ((i / 2 : Nat) : Int)))) w
        = copyDirect d step nX nY w P S (k + 1) := rfl
    by_cases hk : k % 2 = 1
    · have e : ((k + 1) / 2 : Nat) = k / 2 + 1 := by omega
      simp only [h8, decide_eq_true hk, if_true, e, hdst]
      refine ⟨by push_cast; ring, by push_cast; ring, by push_cast; ring, by push_cast; ring,
        by push_cast; ring, by push_cast; ring, by simp; omega, by simp; omega, trivial⟩
    · have e : ((k + 1) / 2 : Nat) = k / 2 := by omega
      simp only [h8, decide_eq_false hk, Bool.false_eq_true, if_false, e, hdst]
      refine ⟨by push_cast; ring, by push_cast; ring, trivial, trivial, trivial, trivial,
        by simp; omega, by simp; omega, trivial⟩

/-! ## Stores and loads -/

theorem store32_of_outside (m : Mem) (p : Int) (w : Nat) (a : Int)
    (h : a < p ∨ p + 4 ≤ a) : store32 m p w a = m a := by
  unfold store32
  rw [if_neg (by omega), if_neg (by omega), if_neg (by omega), if_neg (by omega)]

theorem load32_store32_same (m : Mem) (p : Int) (w : Nat) (hw : w < 4294967296) :
    load32 (store32 m p w) p = w := by
  unfold load32 readByte store32
  rw [if_pos rfl, if_neg (by omega), if_pos rfl, if_neg (by omega), if_neg (by omega),
    if_pos rfl, if_neg (by omega), if_neg (by omega), if_neg (by omega), if_pos rfl]
  omega

theorem load32_congr (m m' : Mem) (q : Int)
    (h : ∀ a, q ≤ a → a < q + 4 → m' a = m a) : load32 m' q = load32 m q := by
  unfold load32 readByte
  rw [h q (by omega) (by omega), h (q + 1) (by omega) (by omega),
    h (q + 2) (by omega) (by omega), h (q + 3) (by omega) (by omega)]

theorem storeRow_of_outside (m : Mem) (p : Int) (f : Nat → Nat) (n : Nat) (a : Int)
    (h : a < p ∨ p + 4 * (n : Int) ≤ a) : storeRow m p f n a = m a := by
  induction n with
  | zero => rfl
  | succ n ih =>
    simp only [storeRow]
    rw [store32_of_outside _ _ _ _ (by push_cast at h; omega)]
    exact ih (by push_cast at h; omega)

theorem load32_storeRow (m : Mem) (p : Int) (f : Nat → Nat) (n i : Nat) (hi : i < n)
    (hf : f i < 4294967296) : load32 (storeRow m p f n) (p + 4 * (i : Int)) = f i := by
  induction n with
  | zero => omega
  | succ n ih =>
    simp only [storeRow]
    by_cases h : i = n
    · subst h; exact load32_store32_same _ _ _ hf
    · rw [load32_congr (storeRow m p f n) _ _
        (fun a h1 h2 => store32_of_outside _ _ _ _ (by omega))]
      exact ih (by omega)

/-- With rows that do not overlap (`4 * w ≤ nDstStep`), the destination left
by the reference copy holds at pixel `(x, y)` of the rectangle the value
assigned to `(x, y)`. -/
theorem load32_copyDirect (d : Mem) (step nX nY : Int) (w : Nat) (P : Fin 3 → Mem)
    (S : Fin 2 → Int) (hstep : 4 * (w : Int) ≤ step) (h x y : Nat) (hx : x < w) (hy : y < h) :
    load32 (copyDirect d step nX nY w P S h) ((nY + (y : Int)) * step + (nX + (x : Int)) * 4)
      = pixelDirect P S x y := by
  induction h with
  | zero => omega
  | succ h ih =>
    simp only [copyDirect]
    by_cases e : y = h
    · subst e
      have := load32_storeRow (copyDirect d step nX nY w P S y)
        ((nY + (y : Int)) * step + nX * 4) (pixelDirect P S · y) w x hx
        (YUV_to_RGB_lt _ _ _)
      have e1 : (nY + (y : Int)) * step + (nX + (x : Int)) * 4
          = (nY + (y : Int)) * step + nX * 4 + 4 * (x : Int) := by ring
      rw [e1]; exact this
    · have hlt : y < h := by omega
      have hmul : (1 : Int) * step ≤ ((h : Int) - (y : Int)) * step :=
        Int.mul_le_mul_of_nonneg_right (by omega) (by omega)
      have hq : (nY + (y : Int)) * step + (nX + (x : Int)) * 4 + 4
          ≤ (nY + (h : Int)) * step + nX * 4 := by
        have e1 : (nY + (h : Int)) * step = (nY + (y : Int)) * step
            + ((h : Int) - (y : Int)) * step := by ring
        rw [e1]; omega
      rw [load32_congr (copyDirect d step nX nY w P S h) _ _
        (fun a h1 h2 => storeRow_of_outside _ _ _ _ _ (by omega))]
      exact ih hlt

/-! ## The copy: refinement and uniform frames -/

theorem copy_even_width_eq_copyDirect (w h : Nat) (hw : w % 2 = 0)
    (pSrcData : Fin 3 → Mem) (nSrcStep : Fin 2 → Int) (pDstData : Mem)
    (nDstStep nXDst nYDst nXSrc nYSrc : Int) :
    (freerdp_image_copy_yuv420p_to_xrgb pDstData nDstStep nXDst nYDst w h pSrcData nSrcStep
        nXSrc nYSrc).2
      = copyDirect pDstData nDstStep nXDst nYDst w pSrcData nSrcStep h := by
  simp only [freerdp_image_copy_yuv420p_to_xrgb, Int.toNat_ofNat]
  exact (rowStep_iterate_even pSrcData nSrcStep pDstData nDstStep nXDst nYDst w hw h).2.2.2.2.2.2.2.2

/-- C2: for even width and even height, luma stride at least the width and
chroma stride at least half the width, the flip-flop walk of
`freerdp_image_copy_yuv420p_to_xrgb` is equivalent to direct indexing: the
destination it leaves is the one left by the reference copy `copyDirect`,
which stores `YUV_to_RGB (Y[y*lumaStride + x], U[(y/2)*chromaStride + x/2],
V[(y/2)*chromaStride + x/2])` at byte offset
`(nYDst + y) * nDstStep + (nXDst + x) * 4` for every `x < width`,
`y < height`; and when destination rows do not overlap
(`4 * width ≤ nDstStep`) the 32-bit pixel found at that offset after the call
is that value. -/
theorem copy_flipflop_eq_direct_indexing (w h : Nat) (hw : Even w) (_hh : Even h)
    (pSrcData : Fin 3 → Mem) (nSrcStep : Fin 2 → Int)
    (_hluma : (w : Int) ≤ nSrcStep 0) (_hchroma : ((w / 2 : Nat) : Int) ≤ nSrcStep 1)
    (pDstData : Mem) (nDstStep nXDst nYDst nXSrc nYSrc : Int) :
    (freerdp_image_copy_yuv420p_to_xrgb pDstData nDstStep nXDst nYDst w h pSrcData nSrcStep
        nXSrc nYSrc).2
      = copyDirect pDstData nDstStep nXDst nYDst w pSrcData nSrcStep h ∧
    (4 * (w : Int) ≤ nDstStep → ∀ x y : Nat, x < w → y < h →
      load32 (freerdp_image_copy_yuv420p_to_xrgb pDstData nDstStep nXDst nYDst w h pSrcData
          nSrcStep nXSrc nYSrc).2 ((nYDst + (y : Int)) * nDstStep + (nXDst + (x : Int)) * 4)
        = YUV_to_RGB (readByte (pSrcData 0) ((y : Int) * nSrcStep 0 + (x : Int)))
            (readByte (pSrcData 1)
              (((y / 2 : Nat) : Int) * nSrcStep 1 + ((x / 2 : Nat) : Int)))
            (readByte (pSrcData 2)
              (((y / 2 : Nat) : Int) * nSrcStep 1 + ((x / 2 : Nat) : Int)))) := by
  have hw2 : w % 2 = 0 := Nat.even_iff.mp hw
  have e := copy_even_width_eq_copyDirect w h hw2 pSrcData nSrcStep pDstData nDstStep nXDst
    nYDst nXSrc nYSrc
  refine ⟨e, fun hstep x y hx hy => ?_⟩
  rw [e]
  exact load32_copyDirect pDstData nDstStep nXDst nYDst w pSrcData nSrcStep hstep h x y hx hy

/-- Witness of C2: a 2x2 frame with luma stride 2 and chroma stride 2, copied
to offset (1, 1) of a zeroed destination with 16-byte rows. -/
theorem copy_flipflop_eq_direct_indexing_witness :
    (Even 2 ∧ Even 2) ∧
    (freerdp_image_copy_yuv420p_to_xrgb (fun _ => 0) 16 1 1 ((2 : Nat) : Int) ((2 : Nat) : Int)
        (fun _ i => i.toNat) (fun _ => 2) 0 0).2
      = copyDirect (fun _ => 0) 16 1 1 2 (fun _ i => i.toNat) (fun _ => 2) 2 ∧
    (4 * ((2 : Nat) : Int) ≤ 16 → ∀ x y : Nat, x < 2 → y < 2 →
      load32 (freerdp_image_copy_yuv420p_to_xrgb (fun _ => 0) 16 1 1 ((2 : Nat) : Int)
          ((2 : Nat) : Int) (fun _ i => i.toNat) (fun _ => 2) 0 0).2
          ((1 + (y : Int)) * 16 + (1 + (x : Int)) * 4)
        = YUV_to_RGB (readByte (fun i => i.toNat) ((y : Int) * 2 + (x : Int)))
            (readByte (fun i => i.toNat) (((y / 2 : Nat) : Int) * 2 + ((x / 2 : Nat) : Int)))
            (readByte (fun i => i.toNat)
              (((y / 2 : Nat) : Int) * 2 + ((x / 2 : Nat) : Int)))) :=
  ⟨⟨by decide, by decide⟩,
    copy_flipflop_eq_direct_indexing 2 2 (by decide) (by decide) (fun _ i => i.toNat)
      (fun _ => 2) (by decide) (by decide) (fun _ => 0) 16 1 1 0 0⟩

/-- C3: for even width and even height and bytes `Y0`, `U0`, `V0`, if the luma
plane holds `Y0` everywhere and the chroma planes hold `U0` and `V0`
everywhere, then after `freerdp_image_copy_yuv420p_to_xrgb` into a packed
destination frame (rows that do not overlap, `4 * width ≤ nDstStep`) every
one of the `width * height` destination pixels equals `YUV_to_RGB Y0 U0 V0`. -/
theorem copy_uniform_planes (w h : Nat) (hw : Even w) (_hh : Even h) (Y0 U0 V0 : Nat)
    (hY0 : Y0 < 256) (hU0 : U0 < 256) (hV0 : V0 < 256)
    (pSrcData : Fin 3 → Mem) (nSrcStep : Fin 2 → Int)
    (hY : ∀ i, pSrcData 0 i = Y0) (hU : ∀ i, pSrcData 1 i = U0) (hV : ∀ i, pSrcData 2 i = V0)
    (pDstData : Mem) (nDstStep nXDst nYDst nXSrc nYSrc : Int)
    (hstep : 4 * (w : Int) ≤ nDstStep) (x y : Nat) (hx : x < w) (hy : y < h) :
    load32 (freerdp_image_copy_yuv420p_to_xrgb pDstData nDstStep nXDst nYDst w h pSrcData
        nSrcStep nXSrc nYSrc).2 ((nYDst + (y : Int)) * nDstStep + (nXDst + (x : Int)) * 4)
      = YUV_to_RGB Y0 U0 V0 := by
  rw [copy_even_width_eq_copyDirect w h (Nat.even_iff.mp hw),
    load32_copyDirect pDstData nDstStep nXDst nYDst w pSrcData nSrcStep hstep h x y hx hy]
  simp only [pixelDirect, readByte, hY, hU, hV, Nat.mod_eq_of_lt hY0, Nat.mod_eq_of_lt hU0,
    Nat.mod_eq_of_lt hV0]

/-- Witness of C3: a 2x2 frame of `(Y0, U0, V0) = (81, 90, 240)` copied to the
origin of a destination with 8-byte rows; pixel `(1, 1)`. -/
theorem copy_uniform_planes_witness :
    (Even 2 ∧ Even 2 ∧ 81 < 256 ∧ 90 < 256 ∧ 240 < 256) ∧
    load32 (freerdp_image_copy_yuv420p_to_xrgb (fun _ => 0) 8 0 0 ((2 : Nat) : Int)
        ((2 : Nat) : Int) (fun k _ => if k = 0 then 81 else if k = 1 then 90 else 240)
        (fun _ => 2) 0 0).2 ((0 + ((1 : Nat) : Int)) * 8 + (0 + ((1 : Nat) : Int)) * 4)
      = YUV_to_RGB 81 90 240 :=
  ⟨by decide,
    copy_uniform_planes 2 2 (by decide) (by decide) 81 90 240 (by decide) (by decide)
      (by decide) (fun k _ => if k = 0 then 81 else if k = 1 then 90 else 240) (fun _ => 2)
      (fun _ => rfl) (fun _ => rfl) (fun _ => rfl) (fun _ => 0) 8 0 0 0 0 (by decide) 1 1
      (by decide) (by decide)⟩

/-! ## Access-unit-delimiter stripper: theorems -/

/-- The scanning loop stops at the first non-zero byte when there is one
inside the span. -/
theorem scanZeros_stop (m : Mem) (k : Nat) :
    ∀ (n : Nat) (d : Int) (r : List Int), k < n →
      (∀ i : Nat, i < k → readByte m (d + (i : Int)) = 0) →
      readByte m (d + (k : Int)) ≠ 0 →
      (scanZeros m n d r).1 = d + (k : Int) ∧ (scanZeros m n d r).2.1 = n - k := by
  induction k with
  | zero =>
    intro n d r hn _ hk
    obtain ⟨n', rfl⟩ : ∃ n', n = n' + 1 := ⟨n - 1, by omega⟩
    have hk' : readByte m d ≠ 0 := by simpa using hk
    simp [scanZeros, hk']
  | succ k ih =>
    intro n d r hn hz hk
    obtain ⟨n', rfl⟩ : ∃ n', n = n' + 1 := ⟨n - 1, by omega⟩
    have h0 : readByte m d = 0 := by simpa using hz 0 (by omega)
    have hz' : ∀ i : Nat, i < k → readByte m (d + 1 + (i : Int)) = 0 := by
      intro i hi
      have := hz (i + 1) (by omega)
      rw [show d + 1 + (i : Int) = d + ((i + 1 : Nat) : Int) by push_cast; ring]
      exact this
    have hk' : readByte m (d + 1 + (k : Int)) ≠ 0 := by
      rw [show d + 1 + (k : Int) = d + ((k + 1 : Nat) : Int) by push_cast; ring]
      exact hk
    obtain ⟨e1, e2⟩ := ih n' (d + 1) (r ++ [d]) (by omega) hz' hk'
    simp only [scanZeros, h0, ne_eq, not_true_eq_false, if_false]
    refine ⟨?_, ?_⟩
    · rw [e1]; push_cast; ring
    · rw [e2]; omega

/-- C4 (amended): for every span of `SrcSize < 2^32` bytes that begins with
`k ≥ 1` zero bytes followed by a `0x01` byte (`prefixLength = k + 1`), whose
next byte has type field 9 and forbidden bit 0, and whose length is at least
`prefixLength + 2`, `h264_strip_nal_unit_au_delimiter` returns a view that
starts `prefixLength + 2` bytes after the original start and whose length is
the original length minus `prefixLength + 2`. -/
theorem strip_au_delimiter (m : Mem) (SrcSize k : Nat) (_hk : 1 ≤ k)
    (hsize : SrcSize < 4294967296) (hlen : (k + 1) + 2 ≤ SrcSize)
    (hz : ∀ i : Nat, i < k → readByte m (i : Int) = 0)
    (hone : readByte m (k : Int) = 1)
    (htype : readByte m ((k : Int) + 1) &&& 0x1F = 9)
    (hforb : readByte m ((k : Int) + 1) >>> 7 = 0) :
    (h264_strip_nal_unit_au_delimiter m SrcSize).data = (((k + 1) + 2 : Nat) : Int) ∧
    ((h264_strip_nal_unit_au_delimiter m SrcSize).size : Int)
      = (SrcSize : Int) - (((k + 1) + 2 : Nat) : Int) := by
  obtain ⟨e1, e2⟩ := scanZeros_stop m k SrcSize 0 [] (by omega)
    (fun i hi => by simpa using hz i hi) (by simp [hone])
  simp only [h264_strip_nal_unit_au_delimiter]
  generalize scanZeros m SrcSize 0 [] = s at e1 e2
  obtain ⟨d, n, r⟩ := s
  simp only at e1 e2
  subst e1 e2
  simp only [zero_add, hone, ne_eq, not_true_eq_false, if_false, hforb, htype, if_true]
  refine ⟨by push_cast; ring, ?_⟩
  omega

/-- Witness of C4: the span `00 00 01 09 10 AA BB`. -/
theorem strip_au_delimiter_witness :
    (h264_strip_nal_unit_au_delimiter (memOfList [0, 0, 1, 9, 0x10, 0xAA, 0xBB] 0) 7).data
      = (((2 + 1) + 2 : Nat) : Int) ∧
    ((h264_strip_nal_unit_au_delimiter (memOfList [0, 0, 1, 9, 0x10, 0xAA, 0xBB] 0) 7).size
        : Int) = ((7 : Nat) : Int) - (((2 + 1) + 2 : Nat) : Int) :=
  strip_au_delimiter (memOfList [0, 0, 1, 9, 0x10, 0xAA, 0xBB] 0) 7 2 (by decide) (by decide)
    (by decide) (by decide) (by decide) (by decide) (by decide)

/-- Counterexample to C4 as stated: the three-byte span `00 01 09` has the
prefix (`k = 1`, `prefixLength = 2`) and a type-9 byte with forbidden bit 0,
but the returned length is `4294967295`, not `3 - (2 + 2)`, and the returned
start lies beyond the end of the span. -/
theorem strip_au_delimiter_short_span :
    readByte (memOfList [0, 1, 9] 0) 0 = 0 ∧ readByte (memOfList [0, 1, 9] 0) 1 = 1 ∧
    readByte (memOfList [0, 1, 9] 0) 2 &&& 0x1F = 9 ∧
    readByte (memOfList [0, 1, 9] 0) 2 >>> 7 = 0 ∧
    (h264_strip_nal_unit_au_delimiter (memOfList [0, 1, 9] 0) 3).data = 4 ∧
    (h264_strip_nal_unit_au_delimiter (memOfList [0, 1, 9] 0) 3).size = 4294967295 ∧
    ((h264_strip_nal_unit_au_delimiter (memOfList [0, 1, 9] 0) 3).size : Int)
      ≠ ((3 : Nat) : Int) - (((1 + 1) + 2 : Nat) : Int) := by
  decide

/-- C5 (amended): for every span that contains a non-zero byte and whose first
non-zero byte is not `0x01`, `h264_strip_nal_unit_au_delimiter` returns the
input unchanged: the same start and the same length. -/
theorem strip_first_nonzero_not_one (m : Mem) (SrcSize k : Nat) (hk : k < SrcSize)
    (hz : ∀ i : Nat, i < k → readByte m (i : Int) = 0)
    (hnz : readByte m (k : Int) ≠ 0) (hne : readByte m (k : Int) ≠ 1) :
    (h264_strip_nal_unit_au_delimiter m SrcSize).data = 0 ∧
    (h264_strip_nal_unit_au_delimiter m SrcSize).size = SrcSize := by
  obtain ⟨e1, e2⟩ := scanZeros_stop m k SrcSize 0 [] hk
    (fun i hi => by simpa using hz i hi) (by simpa using hnz)
  simp only [h264_strip_nal_unit_au_delimiter]
  generalize scanZeros m SrcSize 0 [] = s at e1 e2
  obtain ⟨d, n, r⟩ := s
  simp only at e1 e2
  subst e1 e2
  simp only [zero_add, ne_eq, hne, not_false_eq_true, if_true, and_self]

/-- Witness of C5 (amended): the span `00 00 67 42`. -/
theorem strip_first_nonzero_not_one_witness :
    (h264_strip_nal_unit_au_delimiter (memOfList [0, 0, 0x67, 0x42] 0) 4).data = 0 ∧
    (h264_strip_nal_unit_au_delimiter (memOfList [0, 0, 0x67, 0x42] 0) 4).size = 4 :=
  strip_first_nonzero_not_one (memOfList [0, 0, 0x67, 0x42] 0) 4 2 (by decide) (by decide)
    (by decide) (by decide)

/-- Counterexample to C5 as stated: the span `01 09 00 00` has a non-zero
first byte, so it does not begin with one or more zero bytes followed by
`0x01`, yet the call returns start 3 and length 1. -/
theorem strip_changes_span_starting_with_one :
    readByte (memOfList [1, 9, 0, 0] 0) 0 ≠ 0 ∧
    (¬ ∃ k : Nat, 1 ≤ k ∧ (∀ i : Nat, i < k → readByte (memOfList [1, 9, 0, 0] 0) (i : Int) = 0)
      ∧ readByte (memOfList [1, 9, 0, 0] 0) (k : Int) = 1) ∧
    (h264_strip_nal_unit_au_delimiter (memOfList [1, 9, 0, 0] 0) 4).data = 3 ∧
    (h264_strip_nal_unit_au_delimiter (memOfList [1, 9, 0, 0] 0) 4).size = 1 := by
  refine ⟨by decide, ?_, by decide, by decide⟩
  rintro ⟨k, hk, hz, _⟩
  have h0 := hz 0 (by omega)
  revert h0
  decide

/-- C6: for every span that has the framing prefix (a run of `k` zero bytes,
then `0x01`) and whose following byte has the forbidden bit set or a type
field different from 9, `h264_strip_nal_unit_au_delimiter` returns the
original start and leaves the length unchanged. -/
theorem strip_prefix_not_delimiter (m : Mem) (SrcSize k : Nat) (hk : k + 1 < SrcSize)
    (hz : ∀ i : Nat, i < k → readByte m (i : Int) = 0)
    (hone : readByte m (k : Int) = 1)
    (hnot : readByte m ((k : Int) + 1) >>> 7 ≠ 0 ∨ readByte m ((k : Int) + 1) &&& 0x1F ≠ 9) :
    (h264_strip_nal_unit_au_delimiter m SrcSize).data = 0 ∧
    (h264_strip_nal_unit_au_delimiter m SrcSize).size = SrcSize := by
  obtain ⟨e1, e2⟩ := scanZeros_stop m k SrcSize 0 [] (by omega)
    (fun i hi => by simpa using hz i hi) (by simp [hone])
  simp only [h264_strip_nal_unit_au_delimiter]
  generalize scanZeros m SrcSize 0 [] = s at e1 e2
  obtain ⟨d, n, r⟩ := s
  simp only at e1 e2
  subst e1 e2
  simp only [zero_add, hone, ne_eq, not_true_eq_false, if_false]
  by_cases hf : readByte m ((k : Int) + 1) >>> 7 = 0
  · have ht : readByte m ((k : Int) + 1) &&& 0x1F ≠ 9 := by
      rcases hnot with h | h
      · exact absurd hf h
      · exact h
    simp only [hf, not_true_eq_false, if_false, ht, and_self]
  · simp only [hf, not_false_eq_true, if_true, and_self]

/-- Witness of C6: the span `00 00 00 01 65 88` (type 5) of length 6. -/
theorem strip_prefix_not_delimiter_witness :
    (h264_strip_nal_unit_au_delimiter (memOfList [0, 0, 0, 1, 0x65, 0x88] 0) 6).data = 0 ∧
    (h264_strip_nal_unit_au_delimiter (memOfList [0, 0, 0, 1, 0x65, 0x88] 0) 6).size = 6 :=
  strip_prefix_not_delimiter (memOfList [0, 0, 0, 1, 0x65, 0x88] 0) 6 3 (by decide)
    (by decide) (by decide) (by decide)

/-- C7 fails on the code: for the empty span the call reads the byte at
offset 0, and for the two-byte span `00 00` it reads the bytes at offsets 0, 1
and 2 (the last one in the test for the terminating `0x01`), so not every
byte read lies below the length. -/
theorem strip_reads_past_length :
    (h264_strip_nal_unit_au_delimiter (memOfList [] 0xFF) 0).reads = [0] ∧
    (h264_strip_nal_unit_au_delimiter (memOfList [0, 0] 0xFF) 2).reads = [0, 1, 2] ∧
    ¬ (∀ a ∈ (h264_strip_nal_unit_au_delimiter (memOfList [0, 0] 0xFF) 2).reads,
        a < ((2 : Nat) : Int)) := by
  refine ⟨by decide, by decide, ?_⟩
  intro h
  have := h 2 (by decide)
  revert this
  decide

/-! ## RGB buffer sizing: theorems -/

theorem wrapS32_modEq (x : Int) : wrapS32 x ≡ x [ZMOD 4294967296] := by
  unfold wrapS32
  have h : (x + 2147483648) % 4294967296 ≡ x + 2147483648 [ZMOD 4294967296] :=
    Int.mod_modEq _ _
  simpa using h.sub_right 2147483648

theorem wrapU32_modEq (x : Int) : wrapU32 x ≡ x [ZMOD 4294967296] :=
  Int.mod_modEq _ _

/-- The size computed by `h264_prepare_rgb_buffer` is `width * 4 * height`
reduced modulo `2^32`. -/
theorem prepare_size_eq (width height : Int) :
    wrapU32 (wrapS32 (wrapU32 width * 4) * wrapU32 height)
      = (width * 4 * height) % 4294967296 := by
  have h1 : wrapS32 (wrapU32 width * 4) ≡ width * 4 [ZMOD 4294967296] :=
    (wrapS32_modEq _).trans ((wrapU32_modEq width).mul_right 4)
  exact h1.mul (wrapU32_modEq height)

/-- Fields of the context after `h264_prepare_rgb_buffer`, with the computed
size `s = (width * 4 * height) mod 2^32`. -/
theorem prepare_fields (realloc : Nat → Int → Nat) (h264 : H264_CONTEXT) (width height : Int) :
    (h264_prepare_rgb_buffer realloc h264 width height).2.width = wrapU32 width ∧
    (h264_prepare_rgb_buffer realloc h264 width height).2.height = wrapU32 height ∧
    (h264_prepare_rgb_buffer realloc h264 width height).2.scanline
      = wrapS32 (wrapU32 width * 4) ∧
    (h264_prepare_rgb_buffer realloc h264 width height).2.frame = h264.frame ∧
    (h264_prepare_rgb_buffer realloc h264 width height).2.pDecoder = h264.pDecoder ∧
    ((width * 4 * height) % 4294967296 > h264.size →
      (h264_prepare_rgb_buffer realloc h264 width height).2.data
        = realloc h264.data ((width * 4 * height) % 4294967296) ∧
      (h264_prepare_rgb_buffer realloc h264 width height).2.size
        = (width * 4 * height) % 4294967296) ∧
    (¬ (width * 4 * height) % 4294967296 > h264.size →
      (h264_prepare_rgb_buffer realloc h264 width height).2.data = h264.data ∧
      (h264_prepare_rgb_buffer realloc h264 width height).2.size = h264.size) ∧
    (h264_prepare_rgb_buffer realloc h264 width height).1
      = (if (h264_prepare_rgb_buffer realloc h264 width height).2.data = 0 then -1 else 1) := by
  have hs := prepare_size_eq width height
  simp only [h264_prepare_rgb_buffer, hs]
  by_cases hgt : (width * 4 * height) % 4294967296 > h264.size
  · simp only [hgt, if_true]
    by_cases hd : realloc h264.data ((width * 4 * height) % 4294967296) = 0
    · simp [hd]
    · simp [hd]
  · simp only [hgt, if_false]
    by_cases hd : h264.data = 0
    · simp [hd]
    · simp [hd]

/-- C8 (amended): for every context state and every width and height whose
product `width * 4 * height` lies in `[0, 2^32)`, with
`requiredSize = width * 4 * height`: if `requiredSize` exceeds the current
capacity `size`, `h264_prepare_rgb_buffer` reallocates the buffer to exactly
`requiredSize` and sets `size` to `requiredSize`; otherwise the buffer
pointer and `size` are left untouched, whatever the allocator would have
returned. -/
theorem prepare_grows_only_when_needed (realloc : Nat → Int → Nat) (h264 : H264_CONTEXT)
    (width height : Int) (hlo : 0 ≤ width * 4 * height)
    (hhi : width * 4 * height < 4294967296) :
    (width * 4 * height > h264.size →
      (h264_prepare_rgb_buffer realloc h264 width height).2.data
        = realloc h264.data (width * 4 * height) ∧
      (h264_prepare_rgb_buffer realloc h264 width height).2.size = width * 4 * height) ∧
    (¬ width * 4 * height > h264.size →
      (h264_prepare_rgb_buffer realloc h264 width height).2.data = h264.data ∧
      (h264_prepare_rgb_buffer realloc h264 width height).2.size = h264.size) := by
  have h := prepare_fields realloc h264 width height
  rw [Int.emod_eq_of_lt hlo hhi] at h
  exact ⟨h.2.2.2.2.2.1, h.2.2.2.2.2.2.1⟩

/-- Witness of C8 (amended): growing the 256x256 buffer to 640x480. -/
theorem prepare_grows_only_when_needed_witness :
    (((640 : Int) * 4 * 480 > context256.size →
      (h264_prepare_rgb_buffer movingRealloc context256 640 480).2.data
        = movingRealloc context256.data (640 * 4 * 480) ∧
      (h264_prepare_rgb_buffer movingRealloc context256 640 480).2.size = 640 * 4 * 480) ∧
    (¬ (640 : Int) * 4 * 480 > context256.size →
      (h264_prepare_rgb_buffer movingRealloc context256 640 480).2.data = context256.data ∧
      (h264_prepare_rgb_buffer movingRealloc context256 640 480).2.size = context256.size)) :=
  prepare_grows_only_when_needed movingRealloc context256 640 480 (by decide) (by decide)

/-- Counterexample to C8 as stated: for `width = height = 32768` the product
`width * 4 * height = 2^32` exceeds the capacity 262144 of the context, but
the call neither reallocates (the pointer is the old one, not the one the
allocator would return) nor sets the capacity to the product. -/
theorem prepare_no_growth_on_wrapped_size :
    (32768 : Int) * 4 * 32768 > context256.size ∧
    (h264_prepare_rgb_buffer movingRealloc context256 32768 32768).2.data = context256.data ∧
    (h264_prepare_rgb_buffer movingRealloc context256 32768 32768).2.data
      ≠ movingRealloc context256.data (32768 * 4 * 32768) ∧
    (h264_prepare_rgb_buffer movingRealloc context256 32768 32768).2.size = 262144 ∧
    (h264_prepare_rgb_buffer movingRealloc context256 32768 32768).2.size
      ≠ 32768 * 4 * 32768 := by
  decide

/-- C9 fails on the code: `h264_prepare_rgb_buffer` with
`width = height = 32768` on a context holding a 262144-byte buffer returns 1
with a non-null buffer, `scanline = 131072` and `height = 32768`, while the
capacity stays 262144, below `scanline * height = width * 4 * height = 2^32`. -/
theorem prepare_success_with_short_capacity :
    (h264_prepare_rgb_buffer movingRealloc context256 32768 32768).1 = 1 ∧
    (h264_prepare_rgb_buffer movingRealloc context256 32768 32768).2.data ≠ 0 ∧
    (h264_prepare_rgb_buffer movingRealloc context256 32768 32768).2.scanline = 131072 ∧
    (h264_prepare_rgb_buffer movingRealloc context256 32768 32768).2.height = 32768 ∧
    (h264_prepare_rgb_buffer movingRealloc context256 32768 32768).2.size = 262144 ∧
    (h264_prepare_rgb_buffer movingRealloc context256 32768 32768).2.size
      < (h264_prepare_rgb_buffer movingRealloc context256 32768 32768).2.scanline
        * (h264_prepare_rgb_buffer movingRealloc context256 32768 32768).2.height ∧
    (h264_prepare_rgb_buffer movingRealloc context256 32768 32768).2.size
      < 32768 * 4 * 32768 := by
  decide

/-! ## Decode orchestration: theorems -/

theorem wrapU32_of_range (x : Int) (h0 : 0 ≤ x) (h1 : x < 4294967296) : wrapU32 x = x := by
  unfold wrapU32; omega

theorem wrapS32_of_range (x : Int) (h0 : 0 ≤ x) (h1 : x < 2147483648) : wrapS32 x = x := by
  unfold wrapS32; omega

/-- Shape of a successful call: the buffer has been prepared for the reported
dimensions and the context returned is the prepared one with the frame
replaced by the result of the copy. -/
theorem decompress_success_shape {σ : Type}
    (DecodeFrame2 : σ → Option (Mem × Nat) → DecodeOutput → σ × DecodeOutput)
    (malloc : Int → Nat) (realloc : Nat → Int → Nat)
    (c : H264_CONTEXT) (decoder : σ) (pSrcData : Mem) (SrcSize : Nat)
    (ppDstData : Nat) (DstFormat nDstStep nXDst nYDst nWidth nHeight : Int)
    (hret : (h264_decompress DecodeFrame2 malloc realloc (some c) decoder pSrcData SrcSize
      ppDstData DstFormat nDstStep nXDst nYDst nWidth nHeight).ret = 1) :
    ∃ (prep : Int × H264_CONTEXT) (ctx : H264_CONTEXT),
      prep = h264_prepare_rgb_buffer realloc c
        (reportedOutput DecodeFrame2 decoder pSrcData SrcSize).iWidth
        (reportedOutput DecodeFrame2 decoder pSrcData SrcSize).iHeight ∧
      ¬ prep.1 < 0 ∧
      (h264_decompress DecodeFrame2 malloc realloc (some c) decoder pSrcData SrcSize
        ppDstData DstFormat nDstStep nXDst nYDst nWidth nHeight).h264 = some ctx ∧
      ctx.width = prep.2.width ∧ ctx.height = prep.2.height ∧
      ctx.scanline = prep.2.scanline ∧ ctx.data = prep.2.data ∧ ctx.size = prep.2.size ∧
      ctx.frame = (freerdp_image_copy_yuv420p_to_xrgb prep.2.frame prep.2.scanline 0 0
        (wrapS32 prep.2.width) (wrapS32 prep.2.height)
        (reportedOutput DecodeFrame2 decoder pSrcData SrcSize).planes
        (reportedOutput DecodeFrame2 decoder pSrcData SrcSize).iStride 0 0).2 := by
  have hneg : ¬ ((-1 : Int) = 1) := by decide
  simp only [h264_decompress, reportedOutput] at hret ⊢
  generalize decodeTwice DecodeFrame2 decoder
    (fun i => pSrcData ((h264_strip_nal_unit_au_delimiter pSrcData SrcSize).data + i))
    (h264_strip_nal_unit_au_delimiter pSrcData SrcSize).size = dec at hret ⊢
  generalize h264_prepare_rgb_buffer realloc c dec.2.iWidth dec.2.iHeight = prep at hret ⊢
  by_cases c1 : c.pDecoder = 0
  · rw [if_pos c1] at hret; exact absurd hret hneg
  rw [if_neg c1] at hret ⊢
  by_cases c2 : wrapU32 (nWidth * nHeight * 4) = 0
  · rw [if_pos c2] at hret; exact absurd hret hneg
  rw [if_neg c2] at hret ⊢
  by_cases c3 : (if ppDstData = 0 then malloc (wrapU32 (nWidth * nHeight * 4)) else ppDstData) = 0
  · rw [if_pos c3] at hret; exact absurd hret hneg
  rw [if_neg c3] at hret ⊢
  by_cases c4 : dec.2.state ≠ 0
  · rw [if_pos c4] at hret; exact absurd hret hneg
  rw [if_neg c4] at hret ⊢
  by_cases c5 : dec.2.pYUVData 0 = 0 ∨ dec.2.pYUVData 1 = 0 ∨ dec.2.pYUVData 2 = 0
  · rw [if_pos c5] at hret; exact absurd hret hneg
  rw [if_neg c5] at hret ⊢
  by_cases c6 : dec.2.iBufferStatus ≠ 1
  · rw [if_pos c6] at hret; exact absurd hret hneg
  rw [if_neg c6] at hret ⊢
  by_cases c7 : dec.2.iFormat ≠ videoFormatI420
  · rw [if_pos c7] at hret; exact absurd hret hneg
  rw [if_neg c7] at hret ⊢
  by_cases c8 : prep.1 < 0
  · rw [if_pos c8] at hret; exact absurd hret hneg
  rw [if_neg c8]
  exact ⟨prep, _, rfl, c8, rfl, rfl, rfl, rfl, rfl, rfl, rfl⟩

/-- C10 (amended): when `h264_decompress` returns 1 for a decoder output with
reported even width `W` and even height `H`, both non-negative 32-bit ints
such that `4 * W` fits a signed and `4 * W * H` an unsigned 32-bit integer,
the context afterwards has `width = W`, `height = H`, `scanline = 4 * W`, a
non-null buffer of capacity at least `4 * W * H`, and the buffer holds the
full decoded frame at origin (0,0): for all `x < W`, `y < H` the pixel at
byte offset `y * scanline + 4 * x` is `YUV_to_RGB` of the luma sample at
`(x, y)` and the chroma samples at `(x/2, y/2)`, whatever the caller passed
as destination buffer, format, step, offset and requested width and height. -/
theorem decompress_success_frame {σ : Type}
    (DecodeFrame2 : σ → Option (Mem × Nat) → DecodeOutput → σ × DecodeOutput)
    (malloc : Int → Nat) (realloc : Nat → Int → Nat)
    (h264 : Option H264_CONTEXT) (decoder : σ) (pSrcData : Mem) (SrcSize : Nat)
    (ppDstData : Nat) (DstFormat nDstStep nXDst nYDst nWidth nHeight : Int)
    (W H : Nat) (hW : Even W) (_hH : Even H)
    (hscan : 4 * (W : Int) < 2147483648) (hH31 : (H : Int) < 2147483648)
    (hsize : 4 * (W : Int) * (H : Int) < 4294967296)
    (hw : (reportedOutput DecodeFrame2 decoder pSrcData SrcSize).iWidth = (W : Int))
    (hh : (reportedOutput DecodeFrame2 decoder pSrcData SrcSize).iHeight = (H : Int))
    (hret : (h264_decompress DecodeFrame2 malloc realloc h264 decoder pSrcData SrcSize
      ppDstData DstFormat nDstStep nXDst nYDst nWidth nHeight).ret = 1) :
    ∃ ctx : H264_CONTEXT,
      (h264_decompress DecodeFrame2 malloc realloc h264 decoder pSrcData SrcSize
        ppDstData DstFormat nDstStep nXDst nYDst nWidth nHeight).h264 = some ctx ∧
      ctx.width = (W : Int) ∧ ctx.height = (H : Int) ∧ ctx.scanline = 4 * (W : Int) ∧
      ctx.data ≠ 0 ∧ 4 * (W : Int) * (H : Int) ≤ ctx.size ∧
      ∀ x y : Nat, x < W → y < H →
        load32 ctx.frame ((y : Int) * ctx.scanline + 4 * (x : Int))
          = YUV_to_RGB
              (readByte ((reportedOutput DecodeFrame2 decoder pSrcData SrcSize).planes 0)
                ((y : Int) * (reportedOutput DecodeFrame2 decoder pSrcData SrcSize).iStride 0
                  + (x : Int)))
              (readByte ((reportedOutput DecodeFrame2 decoder pSrcData SrcSize).planes 1)
                (((y / 2 : Nat) : Int)
                  * (reportedOutput DecodeFrame2 decoder pSrcData SrcSize).iStride 1
                  + ((x / 2 : Nat) : Int)))
              (readByte ((reportedOutput DecodeFrame2 decoder pSrcData SrcSize).planes 2)
                (((y / 2 : Nat) : Int)
                  * (reportedOutput DecodeFrame2 decoder pSrcData SrcSize).iStride 1
                  + ((x / 2 : Nat) : Int))) := by
  cases h264 with
  | none => exact absurd hret (show ¬ ((-1 : Int) = 1) by decide)
  | some c =>
    obtain ⟨prep, ctx, hp, hprep, hctx, g1, g2, g3, g4, g5, g6⟩ :=
      decompress_success_shape DecodeFrame2 malloc realloc c decoder
        pSrcData SrcSize ppDstData DstFormat nDstStep nXDst nYDst nWidth nHeight hret
    rw [hw, hh] at hp
    have hf := prepare_fields realloc c W H
    rw [← hp] at hf
    have hreq : ((W : Int) * 4 * (H : Int)) % 4294967296 = 4 * (W : Int) * (H : Int) := by
      rw [Int.emod_eq_of_lt (by positivity) (by linarith)]; ring
    rw [hreq] at hf
    obtain ⟨f1, f2, f3, f4, _, f6, f7, f8⟩ := hf
    rw [wrapU32_of_range (W : Int) (by omega) (by omega)] at f1 f3
    rw [wrapU32_of_range (H : Int) (by omega) (by omega)] at f2
    rw [wrapS32_of_range ((W : Int) * 4) (by omega) (by omega)] at f3
    have hdata : prep.2.data ≠ 0 := by
      intro h0
      rw [f8, if_pos h0] at hprep
      exact hprep (by decide)
    have hcap : 4 * (W : Int) * (H : Int) ≤ prep.2.size := by
      by_cases hg : 4 * (W : Int) * (H : Int) > c.size
      · rw [(f6 hg).2]
      · rw [(f7 hg).2]; omega
    rw [f1] at g1
    rw [f2] at g2
    rw [f3] at g3
    rw [f1, f2, f3, f4, wrapS32_of_range (W : Int) (by omega) (by omega),
      wrapS32_of_range (H : Int) (by omega) (by omega),
      copy_even_width_eq_copyDirect W H (Nat.even_iff.mp hW)] at g6
    refine ⟨ctx, hctx, g1, g2, by rw [g3]; ring, by rw [g4]; exact hdata,
      by rw [g5]; exact hcap, fun x y hx hy => ?_⟩
    have := load32_copyDirect c.frame ((W : Int) * 4) 0 0 W
      (reportedOutput DecodeFrame2 decoder pSrcData SrcSize).planes
      (reportedOutput DecodeFrame2 decoder pSrcData SrcSize).iStride
      (by omega) H x y hx hy
    rw [g3, g6, show (y : Int) * ((W : Int) * 4) + 4 * (x : Int)
      = (0 + (y : Int)) * ((W : Int) * 4) + (0 + (x : Int)) * 4 by ring, this]
    rfl

/-- Witness of C10 (amended): a 2x2 frame decoded into the 256x256 context,
the caller asking for a 1x1 rectangle at offset (5, 7). -/
theorem decompress_success_frame_witness :
    ∃ ctx : H264_CONTEXT,
      (h264_decompress (constDecoder 2 2) (fun _ => 0) movingRealloc (some context256) ()
        (memOfList [0, 0, 1, 0x65] 0) 4 12288 0 0 5 7 1 1).h264 = some ctx ∧
      ctx.width = ((2 : Nat) : Int) ∧ ctx.height = ((2 : Nat) : Int) ∧
      ctx.scanline = 4 * ((2 : Nat) : Int) ∧
      ctx.data ≠ 0 ∧ 4 * ((2 : Nat) : Int) * ((2 : Nat) : Int) ≤ ctx.size ∧
      ∀ x y : Nat, x < 2 → y < 2 →
        load32 ctx.frame ((y : Int) * ctx.scanline + 4 * (x : Int))
          = YUV_to_RGB
              (readByte ((reportedOutput (constDecoder 2 2) ()
                  (memOfList [0, 0, 1, 0x65] 0) 4).planes 0)
                ((y : Int) * (reportedOutput (constDecoder 2 2) ()
                  (memOfList [0, 0, 1, 0x65] 0) 4).iStride 0 + (x : Int)))
              (readByte ((reportedOutput (constDecoder 2 2) ()
                  (memOfList [0, 0, 1, 0x65] 0) 4).planes 1)
                (((y / 2 : Nat) : Int)
                  * (reportedOutput (constDecoder 2 2) ()
                    (memOfList [0, 0, 1, 0x65] 0) 4).iStride 1
                  + ((x / 2 : Nat) : Int)))
              (readByte ((reportedOutput (constDecoder 2 2) ()
                  (memOfList [0, 0, 1, 0x65] 0) 4).planes 2)
                (((y / 2 : Nat) : Int)
                  * (reportedOutput (constDecoder 2 2) ()
                    (memOfList [0, 0, 1, 0x65] 0) 4).iStride 1
                  + ((x / 2 : Nat) : Int))) :=
  decompress_success_frame (constDecoder 2 2) (fun _ => 0) movingRealloc (some context256) ()
    (memOfList [0, 0, 1, 0x65] 0) 4 12288 0 0 5 7 1 1 2 2 (by decide) (by decide)
    (by decide) (by decide) (by decide) (by decide) (by decide) (by decide)

/-- Counterexample to C10 as stated.  For a decoder reporting the even
dimensions `W = 1073741824`, `H = 2` the call returns 1 and leaves
`scanline = 0`, not `4 * W`.  For a decoder reporting `W = H = 32768` the call
returns 1 and leaves a buffer of capacity 262144, which ends before the byte
offset `(H - 1) * scanline + 4 * (W - 1)` of the last pixel of the frame. -/
theorem decompress_success_beyond_32_bits :
    (Even 1073741824 ∧ Even 2 ∧
      (h264_decompress (constDecoder 1073741824 2) (fun _ => 0) movingRealloc
        (some context256) () (memOfList [0, 0, 1, 0x65] 0) 4 12288 0 0 0 0 1 1).ret = 1 ∧
      Option.map H264_CONTEXT.scanline
        (h264_decompress (constDecoder 1073741824 2) (fun _ => 0) movingRealloc
          (some context256) () (memOfList [0, 0, 1, 0x65] 0) 4 12288 0 0 0 0 1 1).h264
        = some 0 ∧
      (0 : Int) ≠ 4 * 1073741824) ∧
    (Even 32768 ∧
      (h264_decompress (constDecoder 32768 32768) (fun _ => 0) movingRealloc
        (some context256) () (memOfList [0, 0, 1, 0x65] 0) 4 12288 0 0 0 0 1 1).ret = 1 ∧
      Option.map H264_CONTEXT.scanline
        (h264_decompress (constDecoder 32768 32768) (fun _ => 0) movingRealloc
          (some context256) () (memOfList [0, 0, 1, 0x65] 0) 4 12288 0 0 0 0 1 1).h264
        = some 131072 ∧
      Option.map H264_CONTEXT.size
        (h264_decompress (constDecoder 32768 32768) (fun _ => 0) movingRealloc
          (some context256) () (memOfList [0, 0, 1, 0x65] 0) 4 12288 0 0 0 0 1 1).h264
        = some 262144 ∧
      (262144 : Int) < (32768 - 1) * 131072 + 4 * (32768 - 1)) := by
  decide

/-! ## Neutral chroma -/

theorem clip_neutral (Y : Nat) (hY : Y < 256) :
    clip ((256 * (Y : Int) + 128) >>> (8 : Nat)) = Y := by
  rw [Int.shiftRight_eq_div_pow]
  unfold clip
  have h : (256 * (Y : Int) + 128) / ((2 ^ 8 : Nat) : Int) = (Y : Int) := by
    norm_num; omega
  rw [h]
  split_ifs <;> omega

theorem RGB32_bytes (r g b : Nat) (hr : r < 256) (hg : g < 256) (hb : b < 256) :
    (RGB32 r g b >>> 16) % 256 = r ∧ (RGB32 r g b >>> 8) % 256 = g ∧
    RGB32 r g b % 256 = b := by
  rw [RGB32_eq r g b hg hb]
  simp only [Nat.shiftRight_eq_div_pow]
  refine ⟨?_, ?_, ?_⟩ <;> omega

/-- C14: on the neutral-chroma axis the converter is the identity on luma:
for every byte `Y`, `YUV_to_RGB Y 128 128` is the packed word `RGB32 Y Y Y`,
whose red, green and blue components are all `Y`. -/
theorem YUV_to_RGB_neutral_chroma (Y : Nat) (hY : Y < 256) :
    YUV_to_RGB Y 128 128 = RGB32 Y Y Y ∧
    (YUV_to_RGB Y 128 128 >>> 16) % 256 = Y ∧
    (YUV_to_RGB Y 128 128 >>> 8) % 256 = Y ∧
    YUV_to_RGB Y 128 128 % 256 = Y := by
  have e : YUV_to_RGB Y 128 128 = RGB32 Y Y Y := by
    have h := clip_neutral Y hY
    simp only [YUV_to_RGB]
    norm_num
    rw [h]
  rw [e]
  exact ⟨rfl, RGB32_bytes Y Y Y hY hY hY⟩

/-- Witness of C14: mid-gray, white and black. -/
theorem YUV_to_RGB_neutral_chroma_witness :
    (YUV_to_RGB 128 128 128 = RGB32 128 128 128 ∧
      (YUV_to_RGB 128 128 128 >>> 16) % 256 = 128 ∧
      (YUV_to_RGB 128 128 128 >>> 8) % 256 = 128 ∧
      YUV_to_RGB 128 128 128 % 256 = 128) ∧
    (YUV_to_RGB 255 128 128 = RGB32 255 255 255 ∧
      (YUV_to_RGB 255 128 128 >>> 16) % 256 = 255 ∧
      (YUV_to_RGB 255 128 128 >>> 8) % 256 = 255 ∧
      YUV_to_RGB 255 128 128 % 256 = 255) ∧
    (YUV_to_RGB 0 128 128 = RGB32 0 0 0 ∧
      (YUV_to_RGB 0 128 128 >>> 16) % 256 = 0 ∧
      (YUV_to_RGB 0 128 128 >>> 8) % 256 = 0 ∧
      YUV_to_RGB 0 128 128 % 256 = 0) :=
  ⟨YUV_to_RGB_neutral_chroma 128 (by decide), YUV_to_RGB_neutral_chroma 255 (by decide),
    YUV_to_RGB_neutral_chroma 0 (by decide)⟩

/-! ## Reference copies with an arbitrary pixel function -/

theorem copyDirect_eq_copyPixels (d : Mem) (step nX nY : Int) (w : Nat) (P : Fin 3 → Mem)
    (S : Fin 2 → Int) (h : Nat) :
    copyDirect d step nX nY w P S h = copyPixels d step nX nY w (pixelDirect P S) h := by
  induction h with
  | zero => rfl
  | succ h ih => simp only [copyDirect, copyPixels, ih]

/-- A byte outside every row of the rectangle is not changed by the reference
copy. -/
theorem copyPixels_of_outside (d : Mem) (step nX nY : Int) (w : Nat) (pix : Nat → Nat → Nat)
    (h : Nat) (a : Int)
    (hout : ∀ y : Nat, y < h →
      a < (nY + (y : Int)) * step + nX * 4 ∨
      (nY + (y : Int)) * step + nX * 4 + 4 * (w : Int) ≤ a) :
    copyPixels d step nX nY w pix h a = d a := by
  induction h with
  | zero => rfl
  | succ h ih =>
    simp only [copyPixels]
    rw [storeRow_of_outside _ _ _ _ _ (hout h (by omega))]
    exact ih (fun y hy => hout y (by omega))

/-- With rows that do not overlap, the destination left by the reference copy
holds at pixel `(x, y)` the value `pix x y`. -/
theorem load32_copyPixels (d : Mem) (step nX nY : Int) (w : Nat) (pix : Nat → Nat → Nat)
    (hpix : ∀ x y, pix x y < 4294967296)
    (hstep : 4 * (w : Int) ≤ step) (h x y : Nat) (hx : x < w) (hy : y < h) :
    load32 (copyPixels d step nX nY w pix h) ((nY + (y : Int)) * step + (nX + (x : Int)) * 4)
      = pix x y := by
  induction h with
  | zero => omega
  | succ h ih =>
    simp only [copyPixels]
    by_cases e : y = h
    · subst e
      have := load32_storeRow (copyPixels d step nX nY w pix y)
        ((nY + (y : Int)) * step + nX * 4) (pix · y) w x hx (hpix x y)
      have e1 : (nY + (y : Int)) * step + (nX + (x : Int)) * 4
          = (nY + (y : Int)) * step + nX * 4 + 4 * (x : Int) := by ring
      rw [e1]; exact this
    · have hlt : y < h := by omega
      have hmul : (1 : Int) * step ≤ ((h : Int) - (y : Int)) * step :=
        Int.mul_le_mul_of_nonneg_right (by omega) (by omega)
      have hq : (nY + (y : Int)) * step + (nX + (x : Int)) * 4 + 4
          ≤ (nY + (h : Int)) * step + nX * 4 := by
        have e1 : (nY + (h : Int)) * step = (nY + (y : Int)) * step
            + ((h : Int) - (y : Int)) * step := by ring
        rw [e1]; omega
      rw [load32_congr (copyPixels d step nX nY w pix h) _ _
        (fun a h1 h2 => storeRow_of_outside _ _ _ _ _ (by omega))]
      exact ih hlt

/-! ## The walk for an odd width -/

/-- Effect of `k` iterations of the outer loop when the width is odd: the
column flag is carried across rows, so both flags are set exactly before the
odd rows, and each pair of rows starts `nSrcStep[1] + 1` chroma samples after
the previous pair. -/
theorem rowStep_iterate_odd (P : Fin 3 → Mem) (S : Fin 2 → Int) (d : Mem)
    (step nX nY : Int) (w : Nat) (hw : w % 2 = 1) (k : Nat) :
    ((rowStep P S step w)^[k] (copyInit d step nX nY)).pDstPixel8
      = (nY + (k : Int)) * step + nX * 4 ∧
    ((rowStep P S step w)^[k] (copyInit d step nX nY)).pY = (k : Int) * S 0 ∧
    ((rowStep P S step w)^[k] (copyInit d step nX nY)).pU
      = ((k / 2 : Nat) : Int) * (S 1 + 1) ∧
    ((rowStep P S step w)^[k] (copyInit d step nX nY)).pV
      = ((k / 2 : Nat) : Int) * (S 1 + 1) ∧
    ((rowStep P S step w)^[k] (copyInit d step nX nY)).pUv
      = ((k / 2 : Nat) : Int) * (S 1 + 1) ∧
    ((rowStep P S step w)^[k] (copyInit d step nX nY)).pVv
      = ((k / 2 : Nat) : Int) * (S 1 + 1) ∧
    ((rowStep P S step w)^[k] (copyInit d step nX nY)).temp1 = decide (k % 2 = 1) ∧
    ((rowStep P S step w)^[k] (copyInit d step nX nY)).temp2 = decide (k % 2 = 1) ∧
    ((rowStep P S step w)^[k] (copyInit d step nX nY)).dst
      = copyPixels d step nX nY w (pixelOddWidth P S) k := by
  induction k with
  | zero => simp [copyInit, copyPixels]
  | succ k ih =>
    rw [Function.iterate_succ_apply']
    generalize (rowStep P S step w)^[k] (copyInit d step nX nY) = r at ih ⊢
    have hc := colStep_iterate P w r
    obtain ⟨d0, pD, pY, pU, pV, pUv, pVv, t1, t2⟩ := r
    obtain ⟨h1, h2, h3, h4, h5, h6, h7, h8, h9⟩ := ih
    simp only at h1 h2 h3 h4 h5 h6 h7 h8 h9
    by_cases hk : k % 2 = 1
    · rw [decide_eq_true hk] at h7 h8
      subst h1 h2 h3 h4 h5 h6 h7 h8 h9
      simp only [rowStep, Int.toNat_ofNat, tdiv_two_natCast]
      generalize (colStep P)^[w] _ = s1 at hc ⊢
      obtain ⟨d1, qD, qY, qU, qV, qUv, qVv, u1, u2⟩ := s1
      obtain ⟨c1, c2, c3, c4, c5, c6, c7, c8, c9⟩ := hc
      simp only [Bool.toNat_true] at c1 c2 c3 c4 c5 c6 c7 c8 c9
      subst c1 c2 c3 c4 c5 c6 c7 c8 c9
      have hdst : storeRow (copyPixels d step nX nY w (pixelOddWidth P S) k)
          ((nY + (k : Int)) * step + nX * 4)
          (fun i => YUV_to_RGB (readByte (P 0) ((k : Int) * S 0 + (i : Int)))
            (readByte (P 1) (((k / 2 : Nat) : Int) * (S 1 + 1) + (((i + 1) / 2 : Nat) : Int)))
            (readByte (P 2) (((k / 2 : Nat) : Int) * (S 1 + 1) + (((i + 1) / 2 : Nat) : Int))))
          w = copyPixels d step nX nY w (pixelOddWidth P S) (k + 1) := by
        simp only [copyPixels, pixelOddWidth, hk]
      have e : ((k + 1) / 2 : Nat) = k / 2 + 1 := by omega
      have ew : (((w + 1) / 2 : Nat) : Int) = ((w / 2 : Nat) : Int) + 1 := by omega
      simp only [if_true, e, hdst, ew]
      refine ⟨by push_cast; ring, by push_cast; ring, by push_cast; ring, by push_cast; ring,
        by push_cast; ring, by push_cast; ring, by simp; omega, by simp; omega, trivial⟩
    · rw [decide_eq_false hk] at h7 h8
      subst h1 h2 h3 h4 h5 h6 h7 h8 h9
      simp only [rowStep, Int.toNat_ofNat, tdiv_two_natCast]
      generalize (colStep P)^[w] _ = s1 at hc ⊢
      obtain ⟨d1, qD, qY, qU, qV, qUv, qVv, u1, u2⟩ := s1
      obtain ⟨c1, c2, c3, c4, c5, c6, c7, c8, c9⟩ := hc
      simp only [Bool.toNat_false, Nat.add_zero] at c1 c2 c3 c4 c5 c6 c7 c8 c9
      subst c1 c2 c3 c4 c5 c6 c7 c8 c9
      have hk0 : k % 2 = 0 := by omega
      have hdst : storeRow (copyPixels d step nX nY w (pixelOddWidth P S) k)
          ((nY + (k : Int)) * step + nX * 4)
          (fun i => YUV_to_RGB (readByte (P 0) ((k : Int) * S 0 + (i : Int)))
            (readByte (P 1) (((k / 2 : Nat) : Int) * (S 1 + 1) + ((i / 2 : Nat) : Int)))
            (readByte (P 2) (((k / 2 : Nat) : Int) * (S 1 + 1) + ((i / 2 : Nat) : Int))))
          w = copyPixels d step nX nY w (pixelOddWidth P S) (k + 1) := by
        simp only [copyPixels, pixelOddWidth, hk0, Nat.add_zero]
      have e : ((k + 1) / 2 : Nat) = k / 2 := by omega
      simp only [Bool.false_eq_true, if_false, e, hdst]
      refine ⟨by push_cast; ring, by push_cast; ring, trivial, trivial, trivial, trivial,
        by simp; omega, by simp; omega, trivial⟩

theorem pixelOddWidth_lt (P : Fin 3 → Mem) (S : Fin 2 → Int) (x y : Nat) :
    pixelOddWidth P S x y < 4294967296 :=
  YUV_to_RGB_lt _ _ _

theorem copy_odd_width_eq_copyPixels (w h : Nat) (hw : w % 2 = 1)
    (pSrcData : Fin 3 → Mem) (nSrcStep : Fin 2 → Int) (pDstData : Mem)
    (nDstStep nXDst nYDst nXSrc nYSrc : Int) :
    (freerdp_image_copy_yuv420p_to_xrgb pDstData nDstStep nXDst nYDst w h pSrcData nSrcStep
        nXSrc nYSrc).2
      = copyPixels pDstData nDstStep nXDst nYDst w (pixelOddWidth pSrcData nSrcStep) h := by
  simp only [freerdp_image_copy_yuv420p_to_xrgb, Int.toNat_ofNat]
  exact (rowStep_iterate_odd pSrcData nSrcStep pDstData nDstStep nXDst nYDst w hw h).2.2.2.2.2.2.2.2

/-- C18: for every odd width `w ≥ 1` and every height, when the walk of
`freerdp_image_copy_yuv420p_to_xrgb` reaches destination pixel `(x, y)`
(after `y` rows and `x` columns) its chroma pointers `pU` and `pV` are at
plane index `(y / 2) * (chromaStride + 1) + (x + y mod 2) / 2` and its luma
pointer at `y * lumaStride + x`; the destination it leaves is the one of the
reference copy that stores `YUV_to_RGB` of these samples at pixel `(x, y)`,
and when destination rows do not overlap (`4 * w ≤ nDstStep`) the pixel found
at `(x, y)` after the call is that value. -/
theorem copy_odd_width_chroma_index (w h : Nat) (hw : Odd w) (_hw1 : 1 ≤ w)
    (pSrcData : Fin 3 → Mem) (nSrcStep : Fin 2 → Int)
    (pDstData : Mem) (nDstStep nXDst nYDst nXSrc nYSrc : Int) :
    (∀ x y : Nat, x < w → y < h →
      ((colStep pSrcData)^[x] ((rowStep pSrcData nSrcStep nDstStep w)^[y]
          (copyInit pDstData nDstStep nXDst nYDst))).pU
        = ((y / 2 : Nat) : Int) * (nSrcStep 1 + 1) + (((x + y % 2) / 2 : Nat) : Int) ∧
      ((colStep pSrcData)^[x] ((rowStep pSrcData nSrcStep nDstStep w)^[y]
          (copyInit pDstData nDstStep nXDst nYDst))).pV
        = ((y / 2 : Nat) : Int) * (nSrcStep 1 + 1) + (((x + y % 2) / 2 : Nat) : Int) ∧
      ((colStep pSrcData)^[x] ((rowStep pSrcData nSrcStep nDstStep w)^[y]
          (copyInit pDstData nDstStep nXDst nYDst))).pY
        = (y : Int) * nSrcStep 0 + (x : Int)) ∧
    (freerdp_image_copy_yuv420p_to_xrgb pDstData nDstStep nXDst nYDst w h pSrcData nSrcStep
        nXSrc nYSrc).2
      = copyPixels pDstData nDstStep nXDst nYDst w (pixelOddWidth pSrcData nSrcStep) h ∧
    (4 * (w : Int) ≤ nDstStep → ∀ x y : Nat, x < w → y < h →
      load32 (freerdp_image_copy_yuv420p_to_xrgb pDstData nDstStep nXDst nYDst w h pSrcData
          nSrcStep nXSrc nYSrc).2 ((nYDst + (y : Int)) * nDstStep + (nXDst + (x : Int)) * 4)
        = YUV_to_RGB (readByte (pSrcData 0) ((y : Int) * nSrcStep 0 + (x : Int)))
            (readByte (pSrcData 1)
              (((y / 2 : Nat) : Int) * (nSrcStep 1 + 1)
                + (((x + y % 2) / 2 : Nat) : Int)))
            (readByte (pSrcData 2)
              (((y / 2 : Nat) : Int) * (nSrcStep 1 + 1)
                + (((x + y % 2) / 2 : Nat) : Int)))) := by
  have hw2 : w % 2 = 1 := Nat.odd_iff.mp hw
  have e := copy_odd_width_eq_copyPixels w h hw2 pSrcData nSrcStep pDstData nDstStep nXDst
    nYDst nXSrc nYSrc
  refine ⟨fun x y _ _ => ?_, e, fun hstep x y hx hy => ?_⟩
  · obtain ⟨_, r2, r3, r4, _, _, r7, _, _⟩ :=
      rowStep_iterate_odd pSrcData nSrcStep pDstData nDstStep nXDst nYDst w hw2 y
    obtain ⟨_, c2, c3, c4, _, _, _, _, _⟩ := colStep_iterate pSrcData x
      ((rowStep pSrcData nSrcStep nDstStep w)^[y] (copyInit pDstData nDstStep nXDst nYDst))
    have ht : ((rowStep pSrcData nSrcStep nDstStep w)^[y]
        (copyInit pDstData nDstStep nXDst nYDst)).temp1.toNat = y % 2 := by
      rw [r7]
      by_cases hy2 : y % 2 = 1
      · rw [decide_eq_true hy2, hy2]; rfl
      · rw [decide_eq_false hy2]
        have : y % 2 = 0 := by omega
        rw [this]; rfl
    rw [c2, c3, c4, r2, r3, r4, ht]
    exact ⟨rfl, rfl, rfl⟩
  · rw [e]
    exact load32_copyPixels pDstData nDstStep nXDst nYDst w (pixelOddWidth pSrcData nSrcStep)
      (pixelOddWidth_lt pSrcData nSrcStep) hstep h x y hx hy

/-- Witness of C18: a 3x2 frame with luma stride 3 and chroma stride 2. -/
theorem copy_odd_width_chroma_index_witness :
    (Odd 3 ∧ 1 ≤ 3) ∧
    (∀ x y : Nat, x < 3 → y < 2 →
      ((colStep (fun _ i => i.toNat))^[x] ((rowStep (fun _ i => i.toNat)
          (fun k => if k = 0 then 3 else 2) 16 ((3 : Nat) : Int))^[y]
          (copyInit (fun _ => 0) 16 1 1))).pU
        = ((y / 2 : Nat) : Int) * ((fun k : Fin 2 => if k = 0 then (3 : Int) else 2) 1 + 1)
          + (((x + y % 2) / 2 : Nat) : Int) ∧
      ((colStep (fun _ i => i.toNat))^[x] ((rowStep (fun _ i => i.toNat)
          (fun k => if k = 0 then 3 else 2) 16 ((3 : Nat) : Int))^[y]
          (copyInit (fun _ => 0) 16 1 1))).pV
        = ((y / 2 : Nat) : Int) * ((fun k : Fin 2 => if k = 0 then (3 : Int) else 2) 1 + 1)
          + (((x + y % 2) / 2 : Nat) : Int) ∧
      ((colStep (fun _ i => i.toNat))^[x] ((rowStep (fun _ i => i.toNat)
          (fun k => if k = 0 then 3 else 2) 16 ((3 : Nat) : Int))^[y]
          (copyInit (fun _ => 0) 16 1 1))).pY
        = (y : Int) * (fun k : Fin 2 => if k = 0 then (3 : Int) else 2) 0 + (x : Int)) ∧
    (freerdp_image_copy_yuv420p_to_xrgb (fun _ => 0) 16 1 1 ((3 : Nat) : Int)
        ((2 : Nat) : Int) (fun _ i => i.toNat) (fun k => if k = 0 then 3 else 2) 0 0).2
      = copyPixels (fun _ => 0) 16 1 1 3
        (pixelOddWidth (fun _ i => i.toNat) (fun k => if k = 0 then 3 else 2)) 2 ∧
    (4 * ((3 : Nat) : Int) ≤ 16 → ∀ x y : Nat, x < 3 → y < 2 →
      load32 (freerdp_image_copy_yuv420p_to_xrgb (fun _ => 0) 16 1 1 ((3 : Nat) : Int)
          ((2 : Nat) : Int) (fun _ i => i.toNat) (fun k => if k = 0 then 3 else 2) 0 0).2
          ((1 + (y : Int)) * 16 + (1 + (x : Int)) * 4)
        = YUV_to_RGB (readByte (fun i => i.toNat)
              ((y : Int) * (fun k : Fin 2 => if k = 0 then (3 : Int) else 2) 0 + (x : Int)))
            (readByte (fun i => i.toNat)
              (((y / 2 : Nat) : Int) * ((fun k : Fin 2 => if k = 0 then (3 : Int) else 2) 1 + 1)
                + (((x + y % 2) / 2 : Nat) : Int)))
            (readByte (fun i => i.toNat)
              (((y / 2 : Nat) : Int) * ((fun k : Fin 2 => if k = 0 then (3 : Int) else 2) 1 + 1)
                + (((x + y % 2) / 2 : Nat) : Int)))) :=
  ⟨⟨by decide, by decide⟩,
    copy_odd_width_chroma_index 3 2 (by decide) (by decide) (fun _ i => i.toNat)
      (fun k => if k = 0 then 3 else 2) (fun _ => 0) 16 1 1 0 0⟩

/-- C19: for every even width and every odd height the flip-flop walk of
`freerdp_image_copy_yuv420p_to_xrgb` agrees with floor indexing: the
destination it leaves is the one of the reference copy `copyDirect`, which
stores `YUV_to_RGB (Y[y*lumaStride + x], U[(y/2)*chromaStride + x/2],
V[(y/2)*chromaStride + x/2])` at pixel `(x, y)`; when destination rows do not
overlap (`4 * width ≤ nDstStep`) each pixel found after the call is that
value, the last row `y = height - 1` using the chroma row `(height - 1) / 2`. -/
theorem copy_even_width_odd_height (w h : Nat) (hw : Even w) (_hh : Odd h)
    (pSrcData : Fin 3 → Mem) (nSrcStep : Fin 2 → Int)
    (pDstData : Mem) (nDstStep nXDst nYDst nXSrc nYSrc : Int) :
    (freerdp_image_copy_yuv420p_to_xrgb pDstData nDstStep nXDst nYDst w h pSrcData nSrcStep
        nXSrc nYSrc).2
      = copyDirect pDstData nDstStep nXDst nYDst w pSrcData nSrcStep h ∧
    (4 * (w : Int) ≤ nDstStep → ∀ x y : Nat, x < w → y < h →
      load32 (freerdp_image_copy_yuv420p_to_xrgb pDstData nDstStep nXDst nYDst w h pSrcData
          nSrcStep nXSrc nYSrc).2 ((nYDst + (y : Int)) * nDstStep + (nXDst + (x : Int)) * 4)
        = YUV_to_RGB (readByte (pSrcData 0) ((y : Int) * nSrcStep 0 + (x : Int)))
            (readByte (pSrcData 1)
              (((y / 2 : Nat) : Int) * nSrcStep 1 + ((x / 2 : Nat) : Int)))
            (readByte (pSrcData 2)
              (((y / 2 : Nat) : Int) * nSrcStep 1 + ((x / 2 : Nat) : Int)))) ∧
    (4 * (w : Int) ≤ nDstStep → ∀ x : Nat, x < w →
      load32 (freerdp_image_copy_yuv420p_to_xrgb pDstData nDstStep nXDst nYDst w h pSrcData
          nSrcStep nXSrc nYSrc).2
          ((nYDst + ((h - 1 : Nat) : Int)) * nDstStep + (nXDst + (x : Int)) * 4)
        = YUV_to_RGB (readByte (pSrcData 0) (((h - 1 : Nat) : Int) * nSrcStep 0 + (x : Int)))
            (readByte (pSrcData 1)
              ((((h - 1) / 2 : Nat) : Int) * nSrcStep 1 + ((x / 2 : Nat) : Int)))
            (readByte (pSrcData 2)
              ((((h - 1) / 2 : Nat) : Int) * nSrcStep 1 + ((x / 2 : Nat) : Int)))) := by
  have hw2 : w % 2 = 0 := Nat.even_iff.mp hw
  have hh2 : h % 2 = 1 := Nat.odd_iff.mp _hh
  have e := copy_even_width_eq_copyDirect w h hw2 pSrcData nSrcStep pDstData nDstStep nXDst
    nYDst nXSrc nYSrc
  refine ⟨e, fun hstep x y hx hy => ?_, fun hstep x hx => ?_⟩
  · rw [e]
    exact load32_copyDirect pDstData nDstStep nXDst nYDst w pSrcData nSrcStep hstep h x y hx hy
  · rw [e]
    exact load32_copyDirect pDstData nDstStep nXDst nYDst w pSrcData nSrcStep hstep h x (h - 1)
      hx (by omega)

/-- Witness of C19: a 2x3 frame with luma stride 2 and chroma stride 1. -/
theorem copy_even_width_odd_height_witness :
    (Even 2 ∧ Odd 3) ∧
    (freerdp_image_copy_yuv420p_to_xrgb (fun _ => 0) 16 1 1 ((2 : Nat) : Int) ((3 : Nat) : Int)
        (fun _ i => i.toNat) (fun k => if k = 0 then 2 else 1) 0 0).2
      = copyDirect (fun _ => 0) 16 1 1 2 (fun _ i => i.toNat)
        (fun k => if k = 0 then 2 else 1) 3 :=
  ⟨⟨by decide, by decide⟩,
    (copy_even_width_odd_height 2 3 (by decide) (by decide) (fun _ i => i.toNat)
      (fun k => if k = 0 then 2 else 1) (fun _ => 0) 16 1 1 0 0).1⟩

/-! ## Frame of the copy -/

/-- Effect of `k` iterations of the outer loop on the destination, for any
width: row `y` is written from byte offset `(nYDst + y) * nDstStep + nXDst * 4`
on, and a byte outside every row written so far is unchanged. -/
theorem rowStep_iterate_frame (P : Fin 3 → Mem) (S : Fin 2 → Int) (d : Mem)
    (step nX nY : Int) (w : Nat) (k : Nat) :
    ((rowStep P S step w)^[k] (copyInit d step nX nY)).pDstPixel8
      = (nY + (k : Int)) * step + nX * 4 ∧
    ∀ a : Int,
      (∀ y : Nat, y < k →
        a < (nY + (y : Int)) * step + nX * 4 ∨
        (nY + (y : Int)) * step + nX * 4 + 4 * (w : Int) ≤ a) →
      ((rowStep P S step w)^[k] (copyInit d step nX nY)).dst a = d a := by
  induction k with
  | zero => exact ⟨by simp [copyInit], fun a _ => rfl⟩
  | succ k ih =>
    rw [Function.iterate_succ_apply']
    generalize (rowStep P S step w)^[k] (copyInit d step nX nY) = r at ih ⊢
    obtain ⟨c1, _, _, _, _, _, _, c8, c9⟩ := colStep_iterate P w r
    obtain ⟨h1, h2⟩ := ih
    have hD : (rowStep P S step w r).pDstPixel8
        = ((colStep P)^[w] r).pDstPixel8 + (step - (w : Int) * 4) := by
      simp only [rowStep, Int.toNat_ofNat]
      split <;> rfl
    have hM : (rowStep P S step w r).dst = ((colStep P)^[w] r).dst := by
      simp only [rowStep, Int.toNat_ofNat]
      split <;> rfl
    refine ⟨?_, fun a ha => ?_⟩
    · rw [hD, c1, h1]; push_cast; ring
    · rw [hM, c9, storeRow_of_outside _ _ _ _ _ (by rw [h1]; exact ha k (by omega))]
      exact h2 a (fun y hy => ha y (by omega))

/-- C20: `freerdp_image_copy_yuv420p_to_xrgb` writes only inside the
destination rectangle: for every `nWidth, nHeight ≥ 0` and
`nDstStep ≥ 4 * (nXDst + nWidth)`, every destination byte whose offset is not
in `[(nYDst+y)*nDstStep + 4*nXDst, (nYDst+y)*nDstStep + 4*(nXDst+nWidth))` for
some `0 ≤ y < nHeight` has the same value after the call as before.  The
source planes are arguments that the copy only reads: its one store goes
through `pDstPixel8`, and the destination is all it returns besides 1. -/
theorem copy_writes_inside_rectangle (nWidth nHeight : Nat)
    (pSrcData : Fin 3 → Mem) (nSrcStep : Fin 2 → Int)
    (pDstData : Mem) (nDstStep nXDst nYDst nXSrc nYSrc : Int)
    (_hstep : 4 * (nXDst + (nWidth : Int)) ≤ nDstStep) (a : Int)
    (hout : ¬ ∃ y : Nat, y < nHeight ∧
      (nYDst + (y : Int)) * nDstStep + 4 * nXDst ≤ a ∧
      a < (nYDst + (y : Int)) * nDstStep + 4 * (nXDst + (nWidth : Int))) :
    (freerdp_image_copy_yuv420p_to_xrgb pDstData nDstStep nXDst nYDst nWidth nHeight pSrcData
        nSrcStep nXSrc nYSrc).2 a = pDstData a ∧
    (freerdp_image_copy_yuv420p_to_xrgb pDstData nDstStep nXDst nYDst nWidth nHeight pSrcData
        nSrcStep nXSrc nYSrc).1 = 1 := by
  refine ⟨?_, rfl⟩
  simp only [freerdp_image_copy_yuv420p_to_xrgb, Int.toNat_ofNat]
  apply (rowStep_iterate_frame pSrcData nSrcStep pDstData nDstStep nXDst nYDst nWidth
    nHeight).2 a
  intro y hy
  by_contra hc
  apply hout
  refine ⟨y, hy, ?_, ?_⟩
  · have : ¬ a < (nYDst + (y : Int)) * nDstStep + nXDst * 4 := fun h => hc (Or.inl h)
    omega
  · have : ¬ (nYDst + (y : Int)) * nDstStep + nXDst * 4 + 4 * (nWidth : Int) ≤ a :=
      fun h => hc (Or.inr h)
    omega

/-- Witness of C20: a 3x2 frame copied to offset (1, 1) of a destination with
16-byte rows leaves byte 33 (row padding after the first written row) as it
was. -/
theorem copy_writes_inside_rectangle_witness :
    (4 * (1 + ((3 : Nat) : Int)) ≤ 16) ∧
    (freerdp_image_copy_yuv420p_to_xrgb (fun i => (i + 7).toNat) 16 1 1 ((3 : Nat) : Int)
        ((2 : Nat) : Int) (fun _ i => i.toNat) (fun _ => 3) 0 0).2 33
      = (fun i : Int => (i + 7).toNat) 33 ∧
    (freerdp_image_copy_yuv420p_to_xrgb (fun i => (i + 7).toNat) 16 1 1 ((3 : Nat) : Int)
        ((2 : Nat) : Int) (fun _ i => i.toNat) (fun _ => 3) 0 0).1 = 1 :=
  ⟨by decide,
    copy_writes_inside_rectangle 3 2 (fun _ i => i.toNat) (fun _ => 3)
      (fun i => (i + 7).toNat) 16 1 1 0 0 (by decide) 33
      (by rintro ⟨y, hy, h1, h2⟩; omega)⟩

/-! ## Decode orchestration: outcomes -/

/-- The three outcomes of `h264_decompress` on a non-null context.  If one of
the checks made before the buffer is prepared fails, the call returns -1 and
the context is untouched; if preparing the buffer for the reported dimensions
fails, the call returns -1 and the context is the one the preparation left;
otherwise the call returns 1 and the context is the prepared one with the
frame replaced by the result of the copy. -/
theorem decompress_outcome {σ : Type}
    (DecodeFrame2 : σ → Option (Mem × Nat) → DecodeOutput → σ × DecodeOutput)
    (malloc : Int → Nat) (realloc : Nat → Int → Nat)
    (c : H264_CONTEXT) (decoder : σ) (pSrcData : Mem) (SrcSize : Nat)
    (ppDstData : Nat) (DstFormat nDstStep nXDst nYDst nWidth nHeight : Int) :
    ∃ (prep : Int × H264_CONTEXT) (E : Prop),
      prep = h264_prepare_rgb_buffer realloc c
        (reportedOutput DecodeFrame2 decoder pSrcData SrcSize).iWidth
        (reportedOutput DecodeFrame2 decoder pSrcData SrcSize).iHeight ∧
      (E ↔ (c.pDecoder = 0 ∨ wrapU32 (nWidth * nHeight * 4) = 0 ∨
        (if ppDstData = 0 then malloc (wrapU32 (nWidth * nHeight * 4)) else ppDstData) = 0 ∨
        (reportedOutput DecodeFrame2 decoder pSrcData SrcSize).state ≠ 0 ∨
        ((reportedOutput DecodeFrame2 decoder pSrcData SrcSize).pYUVData 0 = 0 ∨
          (reportedOutput DecodeFrame2 decoder pSrcData SrcSize).pYUVData 1 = 0 ∨
          (reportedOutput DecodeFrame2 decoder pSrcData SrcSize).pYUVData 2 = 0) ∨
        (reportedOutput DecodeFrame2 decoder pSrcData SrcSize).iBufferStatus ≠ 1 ∨
        (reportedOutput DecodeFrame2 decoder pSrcData SrcSize).iFormat ≠ videoFormatI420)) ∧
      (E →
        (h264_decompress DecodeFrame2 malloc realloc (some c) decoder pSrcData SrcSize
          ppDstData DstFormat nDstStep nXDst nYDst nWidth nHeight).ret = -1 ∧
        (h264_decompress DecodeFrame2 malloc realloc (some c) decoder pSrcData SrcSize
          ppDstData DstFormat nDstStep nXDst nYDst nWidth nHeight).h264 = some c) ∧
      (¬ E → prep.1 < 0 →
        (h264_decompress DecodeFrame2 malloc realloc (some c) decoder pSrcData SrcSize
          ppDstData DstFormat nDstStep nXDst nYDst nWidth nHeight).ret = -1 ∧
        (h264_decompress DecodeFrame2 malloc realloc (some c) decoder pSrcData SrcSize
          ppDstData DstFormat nDstStep nXDst nYDst nWidth nHeight).h264 = some prep.2) ∧
      (¬ E → ¬ prep.1 < 0 →
        (h264_decompress DecodeFrame2 malloc realloc (some c) decoder pSrcData SrcSize
          ppDstData DstFormat nDstStep nXDst nYDst nWidth nHeight).ret = 1 ∧
        ∃ ctx : H264_CONTEXT,
          (h264_decompress DecodeFrame2 malloc realloc (some c) decoder pSrcData SrcSize
            ppDstData DstFormat nDstStep nXDst nYDst nWidth nHeight).h264 = some ctx ∧
          ctx.width = prep.2.width ∧ ctx.height = prep.2.height ∧
          ctx.scanline = prep.2.scanline ∧ ctx.data = prep.2.data ∧
          ctx.size = prep.2.size) := by
  simp only [h264_decompress, reportedOutput]
  generalize decodeTwice DecodeFrame2 decoder
    (fun i => pSrcData ((h264_strip_nal_unit_au_delimiter pSrcData SrcSize).data + i))
    (h264_strip_nal_unit_au_delimiter pSrcData SrcSize).size = dec
  generalize h264_prepare_rgb_buffer realloc c dec.2.iWidth dec.2.iHeight = prep
  refine ⟨prep, _, rfl, Iff.rfl, ?_⟩
  by_cases c1 : c.pDecoder = 0
  · rw [if_pos c1]
    exact ⟨fun _ => ⟨rfl, rfl⟩, fun hE => absurd (Or.inl c1) hE,
      fun hE => absurd (Or.inl c1) hE⟩
  rw [if_neg c1]
  by_cases c2 : wrapU32 (nWidth * nHeight * 4) = 0
  · rw [if_pos c2]
    exact ⟨fun _ => ⟨rfl, rfl⟩, fun hE => absurd (Or.inr (Or.inl c2)) hE,
      fun hE => absurd (Or.inr (Or.inl c2)) hE⟩
  rw [if_neg c2]
  by_cases c3 : (if ppDstData = 0 then malloc (wrapU32 (nWidth * nHeight * 4)) else ppDstData) = 0
  · rw [if_pos c3]
    exact ⟨fun _ => ⟨rfl, rfl⟩, fun hE => absurd (Or.inr (Or.inr (Or.inl c3))) hE,
      fun hE => absurd (Or.inr (Or.inr (Or.inl c3))) hE⟩
  rw [if_neg c3]
  by_cases c4 : dec.2.state ≠ 0
  · rw [if_pos c4]
    exact ⟨fun _ => ⟨rfl, rfl⟩, fun hE => absurd (Or.inr (Or.inr (Or.inr (Or.inl c4)))) hE,
      fun hE => absurd (Or.inr (Or.inr (Or.inr (Or.inl c4)))) hE⟩
  rw [if_neg c4]
  by_cases c5 : dec.2.pYUVData 0 = 0 ∨ dec.2.pYUVData 1 = 0 ∨ dec.2.pYUVData 2 = 0
  · rw [if_pos c5]
    exact ⟨fun _ => ⟨rfl, rfl⟩,
      fun hE => absurd (Or.inr (Or.inr (Or.inr (Or.inr (Or.inl c5))))) hE,
      fun hE => absurd (Or.inr (Or.inr (Or.inr (Or.inr (Or.inl c5))))) hE⟩
  rw [if_neg c5]
  by_cases c6 : dec.2.iBufferStatus ≠ 1
  · rw [if_pos c6]
    exact ⟨fun _ => ⟨rfl, rfl⟩,
      fun hE => absurd (Or.inr (Or.inr (Or.inr (Or.inr (Or.inr (Or.inl c6)))))) hE,
      fun hE => absurd (Or.inr (Or.inr (Or.inr (Or.inr (Or.inr (Or.inl c6)))))) hE⟩
  rw [if_neg c6]
  by_cases c7 : dec.2.iFormat ≠ videoFormatI420
  · rw [if_pos c7]
    exact ⟨fun _ => ⟨rfl, rfl⟩,
      fun hE => absurd (Or.inr (Or.inr (Or.inr (Or.inr (Or.inr (Or.inr c7)))))) hE,
      fun hE => absurd (Or.inr (Or.inr (Or.inr (Or.inr (Or.inr (Or.inr c7)))))) hE⟩
  rw [if_neg c7]
  have hnE : ¬ (c.pDecoder = 0 ∨ wrapU32 (nWidth * nHeight * 4) = 0 ∨
      (if ppDstData = 0 then malloc (wrapU32 (nWidth * nHeight * 4)) else ppDstData) = 0 ∨
      dec.2.state ≠ 0 ∨
      (dec.2.pYUVData 0 = 0 ∨ dec.2.pYUVData 1 = 0 ∨ dec.2.pYUVData 2 = 0) ∨
      dec.2.iBufferStatus ≠ 1 ∨ dec.2.iFormat ≠ videoFormatI420) := by
    rintro (h | h | h | h | h | h | h)
    · exact c1 h
    · exact c2 h
    · exact c3 h
    · exact c4 h
    · exact c5 h
    · exact c6 h
    · exact c7 h
  by_cases c8 : prep.1 < 0
  · rw [if_pos c8]
    exact ⟨fun hE => absurd hE hnE, fun _ _ => ⟨rfl, rfl⟩, fun _ h => absurd c8 h⟩
  · rw [if_neg c8]
    exact ⟨fun hE => absurd hE hnE, fun _ h => absurd h c8,
      fun _ _ => ⟨rfl, _, rfl, rfl, rfl, rfl, rfl, rfl⟩⟩

theorem prepare_ret_neg_iff (realloc : Nat → Int → Nat) (c : H264_CONTEXT) (width height : Int) :
    (h264_prepare_rgb_buffer realloc c width height).1 < 0 ↔
      (h264_prepare_rgb_buffer realloc c width height).1 = -1 := by
  have h := (prepare_fields realloc c width height).2.2.2.2.2.2.2
  by_cases hd : (h264_prepare_rgb_buffer realloc c width height).2.data = 0
  · rw [if_pos hd] at h; rw [h]; decide
  · rw [if_neg hd] at h; rw [h]; decide

/-- C11: for a non-null context holding a decoder and a caller-supplied
(non-null) destination buffer, `h264_decompress` returns -1 if and only if at
least one of these holds: `nWidth * nHeight * 4` computed in 32 bits is zero;
the decoder status (the one left by the two decoder calls) is non-zero; one
of the three plane pointers is null; the buffer-readiness indicator is not 1;
the reported pixel format is not I420; or preparing the frame buffer for the
reported dimensions fails.  In every other case it returns 1. -/
theorem decompress_failure_iff {σ : Type}
    (DecodeFrame2 : σ → Option (Mem × Nat) → DecodeOutput → σ × DecodeOutput)
    (malloc : Int → Nat) (realloc : Nat → Int → Nat)
    (c : H264_CONTEXT) (decoder : σ) (pSrcData : Mem) (SrcSize : Nat)
    (ppDstData : Nat) (DstFormat nDstStep nXDst nYDst nWidth nHeight : Int)
    (hdec : c.pDecoder ≠ 0) (hdst : ppDstData ≠ 0) :
    ((h264_decompress DecodeFrame2 malloc realloc (some c) decoder pSrcData SrcSize
        ppDstData DstFormat nDstStep nXDst nYDst nWidth nHeight).ret = -1 ↔
      (wrapU32 (nWidth * nHeight * 4) = 0 ∨
        (reportedOutput DecodeFrame2 decoder pSrcData SrcSize).state ≠ 0 ∨
        ((reportedOutput DecodeFrame2 decoder pSrcData SrcSize).pYUVData 0 = 0 ∨
          (reportedOutput DecodeFrame2 decoder pSrcData SrcSize).pYUVData 1 = 0 ∨
          (reportedOutput DecodeFrame2 decoder pSrcData SrcSize).pYUVData 2 = 0) ∨
        (reportedOutput DecodeFrame2 decoder pSrcData SrcSize).iBufferStatus ≠ 1 ∨
        (reportedOutput DecodeFrame2 decoder pSrcData SrcSize).iFormat ≠ videoFormatI420 ∨
        (h264_prepare_rgb_buffer realloc c
          (reportedOutput DecodeFrame2 decoder pSrcData SrcSize).iWidth
          (reportedOutput DecodeFrame2 decoder pSrcData SrcSize).iHeight).1 = -1)) ∧
    ((h264_decompress DecodeFrame2 malloc realloc (some c) decoder pSrcData SrcSize
        ppDstData DstFormat nDstStep nXDst nYDst nWidth nHeight).ret = 1 ↔
      ¬ (wrapU32 (nWidth * nHeight * 4) = 0 ∨
        (reportedOutput DecodeFrame2 decoder pSrcData SrcSize).state ≠ 0 ∨
        ((reportedOutput DecodeFrame2 decoder pSrcData SrcSize).pYUVData 0 = 0 ∨
          (reportedOutput DecodeFrame2 decoder pSrcData SrcSize).pYUVData 1 = 0 ∨
          (reportedOutput DecodeFrame2 decoder pSrcData SrcSize).pYUVData 2 = 0) ∨
        (reportedOutput DecodeFrame2 decoder pSrcData SrcSize).iBufferStatus ≠ 1 ∨
        (reportedOutput DecodeFrame2 decoder pSrcData SrcSize).iFormat ≠ videoFormatI420 ∨
        (h264_prepare_rgb_buffer realloc c
          (reportedOutput DecodeFrame2 decoder pSrcData SrcSize).iWidth
          (reportedOutput DecodeFrame2 decoder pSrcData SrcSize).iHeight).1 = -1)) := by
  obtain ⟨prep, E, hp, hE, o1, o2, o3⟩ := decompress_outcome DecodeFrame2 malloc realloc c
    decoder pSrcData SrcSize ppDstData DstFormat nDstStep nXDst nYDst nWidth nHeight
  have hneg := prepare_ret_neg_iff realloc c
    (reportedOutput DecodeFrame2 decoder pSrcData SrcSize).iWidth
    (reportedOutput DecodeFrame2 decoder pSrcData SrcSize).iHeight
  rw [← hp] at hneg ⊢
  rw [if_neg hdst] at hE
  generalize (h264_decompress DecodeFrame2 malloc realloc (some c) decoder pSrcData SrcSize
    ppDstData DstFormat nDstStep nXDst nYDst nWidth nHeight).ret = ret at o1 o2 o3 ⊢
  generalize (h264_decompress DecodeFrame2 malloc realloc (some c) decoder pSrcData SrcSize
    ppDstData DstFormat nDstStep nXDst nYDst nWidth nHeight).h264 = ctx at o1 o2 o3
  generalize reportedOutput DecodeFrame2 decoder pSrcData SrcSize = out at hE ⊢
  have h1 : ¬ ((-1 : Int) = 1) := by decide
  have h2 : ¬ ((1 : Int) = -1) := by decide
  by_cases e : E
  · have hD : wrapU32 (nWidth * nHeight * 4) = 0 ∨ out.state ≠ 0 ∨
        (out.pYUVData 0 = 0 ∨ out.pYUVData 1 = 0 ∨ out.pYUVData 2 = 0) ∨
        out.iBufferStatus ≠ 1 ∨ out.iFormat ≠ videoFormatI420 ∨ prep.1 = -1 := by
      rcases hE.mp e with h | h | h | h | h | h | h
      · exact absurd h hdec
      · exact Or.inl h
      · exact absurd h hdst
      · exact Or.inr (Or.inl h)
      · exact Or.inr (Or.inr (Or.inl h))
      · exact Or.inr (Or.inr (Or.inr (Or.inl h)))
      · exact Or.inr (Or.inr (Or.inr (Or.inr (Or.inl h))))
    rw [(o1 e).1]
    exact ⟨⟨fun _ => hD, fun _ => rfl⟩, ⟨fun h => absurd h h1, fun h => absurd hD h⟩⟩
  · have hD5 : ¬ (wrapU32 (nWidth * nHeight * 4) = 0 ∨ out.state ≠ 0 ∨
        (out.pYUVData 0 = 0 ∨ out.pYUVData 1 = 0 ∨ out.pYUVData 2 = 0) ∨
        out.iBufferStatus ≠ 1 ∨ out.iFormat ≠ videoFormatI420) := by
      intro h
      apply e
      rw [hE]
      rcases h with h | h | h | h | h
      · exact Or.inr (Or.inl h)
      · exact Or.inr (Or.inr (Or.inr (Or.inl h)))
      · exact Or.inr (Or.inr (Or.inr (Or.inr (Or.inl h))))
      · exact Or.inr (Or.inr (Or.inr (Or.inr (Or.inr (Or.inl h)))))
      · exact Or.inr (Or.inr (Or.inr (Or.inr (Or.inr (Or.inr h)))))
    by_cases p : prep.1 < 0
    · have hD : wrapU32 (nWidth * nHeight * 4) = 0 ∨ out.state ≠ 0 ∨
          (out.pYUVData 0 = 0 ∨ out.pYUVData 1 = 0 ∨ out.pYUVData 2 = 0) ∨
          out.iBufferStatus ≠ 1 ∨ out.iFormat ≠ videoFormatI420 ∨ prep.1 = -1 :=
        Or.inr (Or.inr (Or.inr (Or.inr (Or.inr (hneg.mp p)))))
      rw [(o2 e p).1]
      exact ⟨⟨fun _ => hD, fun _ => rfl⟩, ⟨fun h => absurd h h1, fun h => absurd hD h⟩⟩
    · have hD : ¬ (wrapU32 (nWidth * nHeight * 4) = 0 ∨ out.state ≠ 0 ∨
          (out.pYUVData 0 = 0 ∨ out.pYUVData 1 = 0 ∨ out.pYUVData 2 = 0) ∨
          out.iBufferStatus ≠ 1 ∨ out.iFormat ≠ videoFormatI420 ∨ prep.1 = -1) := by
        rintro (h | h | h | h | h | h)
        · exact hD5 (Or.inl h)
        · exact hD5 (Or.inr (Or.inl h))
        · exact hD5 (Or.inr (Or.inr (Or.inl h)))
        · exact hD5 (Or.inr (Or.inr (Or.inr (Or.inl h))))
        · exact hD5 (Or.inr (Or.inr (Or.inr (Or.inr h))))
        · exact p (hneg.mpr h)
      rw [(o3 e p).1]
      exact ⟨⟨fun h => absurd h h2, fun h => absurd h hD⟩, ⟨fun _ => hD, fun _ => rfl⟩⟩

/-- Witness of C11: a ready 2x2 I420 frame decoded into the 256x256 context
with a caller-supplied destination buffer. -/
theorem decompress_failure_iff_witness :
    (context256.pDecoder ≠ 0 ∧ (12288 : Nat) ≠ 0) ∧
    (((h264_decompress (constDecoder 2 2) (fun _ => 0) movingRealloc (some context256) () (memOfList [0, 0, 1, 0x65] 0) 4
        12288 0 0 5 7 1 1).ret = -1 ↔
      (wrapU32 ((1 : Int) * 1 * 4) = 0 ∨
        (reportedOutput (constDecoder 2 2) () (memOfList [0, 0, 1, 0x65] 0) 4).state ≠ 0 ∨
        ((reportedOutput (constDecoder 2 2) () (memOfList [0, 0, 1, 0x65] 0) 4).pYUVData 0 = 0 ∨
          (reportedOutput (constDecoder 2 2) () (memOfList [0, 0, 1, 0x65] 0) 4).pYUVData 1 = 0 ∨
          (reportedOutput (constDecoder 2 2) () (memOfList [0, 0, 1, 0x65] 0) 4).pYUVData 2 = 0) ∨
        (reportedOutput (constDecoder 2 2) () (memOfList [0, 0, 1, 0x65] 0) 4).iBufferStatus ≠ 1 ∨
        (reportedOutput (constDecoder 2 2) () (memOfList [0, 0, 1, 0x65] 0) 4).iFormat ≠ videoFormatI420 ∨
        (h264_prepare_rgb_buffer movingRealloc context256
          (reportedOutput (constDecoder 2 2) () (memOfList [0, 0, 1, 0x65] 0) 4).iWidth
          (reportedOutput (constDecoder 2 2) () (memOfList [0, 0, 1, 0x65] 0) 4).iHeight).1 = -1)) ∧
    ((h264_decompress (constDecoder 2 2) (fun _ => 0) movingRealloc (some context256) () (memOfList [0, 0, 1, 0x65] 0) 4
        12288 0 0 5 7 1 1).ret = 1 ↔
      ¬ (wrapU32 ((1 : Int) * 1 * 4) = 0 ∨
        (reportedOutput (constDecoder 2 2) () (memOfList [0, 0, 1, 0x65] 0) 4).state ≠ 0 ∨
        ((reportedOutput (constDecoder 2 2) () (memOfList [0, 0, 1, 0x65] 0) 4).pYUVData 0 = 0 ∨
          (reportedOutput (constDecoder 2 2) () (memOfList [0, 0, 1, 0x65] 0) 4).pYUVData 1 = 0 ∨
          (reportedOutput (constDecoder 2 2) () (memOfList [0, 0, 1, 0x65] 0) 4).pYUVData 2 = 0) ∨
        (reportedOutput (constDecoder 2 2) () (memOfList [0, 0, 1, 0x65] 0) 4).iBufferStatus ≠ 1 ∨
        (reportedOutput (constDecoder 2 2) () (memOfList [0, 0, 1, 0x65] 0) 4).iFormat ≠ videoFormatI420 ∨
        (h264_prepare_rgb_buffer movingRealloc context256
          (reportedOutput (constDecoder 2 2) () (memOfList [0, 0, 1, 0x65] 0) 4).iWidth
          (reportedOutput (constDecoder 2 2) () (memOfList [0, 0, 1, 0x65] 0) 4).iHeight).1 = -1))) :=
  ⟨⟨by decide, by decide⟩,
    decompress_failure_iff (constDecoder 2 2) (fun _ => 0) movingRealloc context256 ()
      (memOfList [0, 0, 1, 0x65] 0) 4 12288 0 0 5 7 1 1 (by decide) (by decide)⟩

/-- C12: for every context and input, if the decoder status (the one left by
the two decoder calls) is non-zero, `h264_decompress` returns -1 and the
context, in particular its width, height, scanline, capacity, buffer pointer
and buffer contents, is exactly what it was before the call. -/
theorem decompress_decoder_failure {σ : Type}
    (DecodeFrame2 : σ → Option (Mem × Nat) → DecodeOutput → σ × DecodeOutput)
    (malloc : Int → Nat) (realloc : Nat → Int → Nat)
    (h264 : Option H264_CONTEXT) (decoder : σ) (pSrcData : Mem) (SrcSize : Nat)
    (ppDstData : Nat) (DstFormat nDstStep nXDst nYDst nWidth nHeight : Int)
    (hfail : (reportedOutput DecodeFrame2 decoder pSrcData SrcSize).state ≠ 0) :
    (h264_decompress DecodeFrame2 malloc realloc h264 decoder pSrcData SrcSize
      ppDstData DstFormat nDstStep nXDst nYDst nWidth nHeight).ret = -1 ∧
    (h264_decompress DecodeFrame2 malloc realloc h264 decoder pSrcData SrcSize
      ppDstData DstFormat nDstStep nXDst nYDst nWidth nHeight).h264 = h264 := by
  cases h264 with
  | none => exact ⟨rfl, rfl⟩
  | some c =>
    obtain ⟨prep, E, _, hE, o1, _, _⟩ := decompress_outcome DecodeFrame2 malloc realloc c
      decoder pSrcData SrcSize ppDstData DstFormat nDstStep nXDst nYDst nWidth nHeight
    exact o1 (hE.mpr (Or.inr (Or.inr (Or.inr (Or.inl hfail)))))

/-- Witness of C12: a decoder whose every call reports status 7 and leaves the
out-parameters as they were. -/
theorem decompress_decoder_failure_witness :
    (reportedOutput (fun (_ : Unit) _ out => ((), { out with state := 7 })) ()
      (memOfList [0, 0, 1, 0x65] 0) 4).state ≠ 0 ∧
    (h264_decompress (fun (_ : Unit) _ out => ((), { out with state := 7 })) (fun _ => 0)
      movingRealloc (some context256) () (memOfList [0, 0, 1, 0x65] 0) 4 12288 0 0 0 0
      640 480).ret = -1 ∧
    (h264_decompress (fun (_ : Unit) _ out => ((), { out with state := 7 })) (fun _ => 0)
      movingRealloc (some context256) () (memOfList [0, 0, 1, 0x65] 0) 4 12288 0 0 0 0
      640 480).h264 = some context256 :=
  ⟨by decide,
    decompress_decoder_failure (fun (_ : Unit) _ out => ((), { out with state := 7 }))
      (fun _ => 0) movingRealloc (some context256) () (memOfList [0, 0, 1, 0x65] 0) 4 12288
      0 0 0 0 640 480 (by decide)⟩

/-- C13 (amended): for every call of `h264_decompress` that returns -1, the
context (width, height, scanline, capacity, buffer pointer and contents) is
unchanged from before the call, except when the failure is that of preparing
the frame buffer for the decoder-reported dimensions: then the context is
the one `h264_prepare_rgb_buffer` left. -/
theorem decompress_failure_context {σ : Type}
    (DecodeFrame2 : σ → Option (Mem × Nat) → DecodeOutput → σ × DecodeOutput)
    (malloc : Int → Nat) (realloc : Nat → Int → Nat)
    (h264 : Option H264_CONTEXT) (decoder : σ) (pSrcData : Mem) (SrcSize : Nat)
    (ppDstData : Nat) (DstFormat nDstStep nXDst nYDst nWidth nHeight : Int)
    (hret : (h264_decompress DecodeFrame2 malloc realloc h264 decoder pSrcData SrcSize
      ppDstData DstFormat nDstStep nXDst nYDst nWidth nHeight).ret = -1) :
    (h264_decompress DecodeFrame2 malloc realloc h264 decoder pSrcData SrcSize
      ppDstData DstFormat nDstStep nXDst nYDst nWidth nHeight).h264 = h264 ∨
    ∃ c : H264_CONTEXT, h264 = some c ∧
      (h264_prepare_rgb_buffer realloc c
        (reportedOutput DecodeFrame2 decoder pSrcData SrcSize).iWidth
        (reportedOutput DecodeFrame2 decoder pSrcData SrcSize).iHeight).1 = -1 ∧
      (h264_decompress DecodeFrame2 malloc realloc h264 decoder pSrcData SrcSize
        ppDstData DstFormat nDstStep nXDst nYDst nWidth nHeight).h264
        = some (h264_prepare_rgb_buffer realloc c
          (reportedOutput DecodeFrame2 decoder pSrcData SrcSize).iWidth
          (reportedOutput DecodeFrame2 decoder pSrcData SrcSize).iHeight).2 := by
  cases h264 with
  | none => exact Or.inl rfl
  | some c =>
    obtain ⟨prep, E, hp, _, o1, o2, o3⟩ := decompress_outcome DecodeFrame2 malloc realloc c
      decoder pSrcData SrcSize ppDstData DstFormat nDstStep nXDst nYDst nWidth nHeight
    have hneg := prepare_ret_neg_iff realloc c
      (reportedOutput DecodeFrame2 decoder pSrcData SrcSize).iWidth
      (reportedOutput DecodeFrame2 decoder pSrcData SrcSize).iHeight
    by_cases e : E
    · exact Or.inl (o1 e).2
    · by_cases p : prep.1 < 0
      · refine Or.inr ⟨c, rfl, ?_, ?_⟩
        · rw [← hp]; exact (hp ▸ hneg).mp p
        · rw [← hp]; exact (o2 e p).2
      · rw [(o3 e p).1] at hret
        exact absurd hret (by decide)

/-- Witness of C13 (amended): a call with a zero requested size. -/
theorem decompress_failure_context_witness :
    (h264_decompress (constDecoder 2 2) (fun _ => 0) movingRealloc (some context256) ()
      (memOfList [0, 0, 1, 0x65] 0) 4 12288 0 0 0 0 0 0).ret = -1 ∧
    ((h264_decompress (constDecoder 2 2) (fun _ => 0) movingRealloc (some context256) ()
      (memOfList [0, 0, 1, 0x65] 0) 4 12288 0 0 0 0 0 0).h264 = some context256 ∨
    ∃ c : H264_CONTEXT, some context256 = some c ∧
      (h264_prepare_rgb_buffer movingRealloc c
        (reportedOutput (constDecoder 2 2) () (memOfList [0, 0, 1, 0x65] 0) 4).iWidth
        (reportedOutput (constDecoder 2 2) () (memOfList [0, 0, 1, 0x65] 0) 4).iHeight).1
          = -1 ∧
      (h264_decompress (constDecoder 2 2) (fun _ => 0) movingRealloc (some context256) ()
        (memOfList [0, 0, 1, 0x65] 0) 4 12288 0 0 0 0 0 0).h264
        = some (h264_prepare_rgb_buffer movingRealloc c
          (reportedOutput (constDecoder 2 2) () (memOfList [0, 0, 1, 0x65] 0) 4).iWidth
          (reportedOutput (constDecoder 2 2) () (memOfList [0, 0, 1, 0x65] 0) 4).iHeight).2) :=
  ⟨by decide,
    decompress_failure_context (constDecoder 2 2) (fun _ => 0) movingRealloc (some context256)
      () (memOfList [0, 0, 1, 0x65] 0) 4 12288 0 0 0 0 0 0 (by decide)⟩

/-- Counterexample to C13 as stated: the decoder reports a ready 640x480 I420
frame and growing the 262144-byte buffer fails.  The call returns -1, yet
the context now has width 640, height 480, scanline 2560, capacity 1228800
and a null buffer, where it had 256, 256, 1024, 262144 and a non-null
buffer. -/
theorem decompress_failure_commits_dimensions :
    (h264_decompress (constDecoder 640 480) (fun _ => 0) failingRealloc (some context256) ()
      (memOfList [0, 0, 1, 0x65] 0) 4 12288 0 0 0 0 640 480).ret = -1 ∧
    Option.map H264_CONTEXT.width
      (h264_decompress (constDecoder 640 480) (fun _ => 0) failingRealloc (some context256) ()
        (memOfList [0, 0, 1, 0x65] 0) 4 12288 0 0 0 0 640 480).h264 = some 640 ∧
    Option.map H264_CONTEXT.height
      (h264_decompress (constDecoder 640 480) (fun _ => 0) failingRealloc (some context256) ()
        (memOfList [0, 0, 1, 0x65] 0) 4 12288 0 0 0 0 640 480).h264 = some 480 ∧
    Option.map H264_CONTEXT.scanline
      (h264_decompress (constDecoder 640 480) (fun _ => 0) failingRealloc (some context256) ()
        (memOfList [0, 0, 1, 0x65] 0) 4 12288 0 0 0 0 640 480).h264 = some 2560 ∧
    Option.map H264_CONTEXT.size
      (h264_decompress (constDecoder 640 480) (fun _ => 0) failingRealloc (some context256) ()
        (memOfList [0, 0, 1, 0x65] 0) 4 12288 0 0 0 0 640 480).h264 = some 1228800 ∧
    Option.map H264_CONTEXT.data
      (h264_decompress (constDecoder 640 480) (fun _ => 0) failingRealloc (some context256) ()
        (memOfList [0, 0, 1, 0x65] 0) 4 12288 0 0 0 0 640 480).h264 = some 0 ∧
    context256.width = 256 ∧ context256.height = 256 ∧ context256.scanline = 1024 ∧
    context256.size = 262144 ∧ context256.data = 4096 := by
  decide

/-! ## RGB buffer sizing: repeated calls -/

theorem prepare_size_ge (realloc : Nat → Int → Nat) (c : H264_CONTEXT) (width height : Int) :
    c.size ≤ (h264_prepare_rgb_buffer realloc c width height).2.size ∧
    (width * 4 * height) % 4294967296
      ≤ (h264_prepare_rgb_buffer realloc c width height).2.size := by
  obtain ⟨_, _, _, _, _, f6, f7, _⟩ := prepare_fields realloc c width height
  by_cases hg : (width * 4 * height) % 4294967296 > c.size
  · rw [(f6 hg).2]; omega
  · rw [(f7 hg).2]; omega

/-- C15: for every context state and every width and height, calling
`h264_prepare_rgb_buffer` a second time with the same width and height right
after a first call performs no reallocation: whatever the allocator would
return, the buffer pointer and the capacity after the second call are those
after the first (and so are the dimensions and the return value). -/
theorem prepare_twice_same_buffer (realloc1 realloc2 : Nat → Int → Nat) (h264 : H264_CONTEXT)
    (width height : Int) :
    (h264_prepare_rgb_buffer realloc2
        (h264_prepare_rgb_buffer realloc1 h264 width height).2 width height).2.data
      = (h264_prepare_rgb_buffer realloc1 h264 width height).2.data ∧
    (h264_prepare_rgb_buffer realloc2
        (h264_prepare_rgb_buffer realloc1 h264 width height).2 width height).2.size
      = (h264_prepare_rgb_buffer realloc1 h264 width height).2.size ∧
    (h264_prepare_rgb_buffer realloc2
        (h264_prepare_rgb_buffer realloc1 h264 width height).2 width height).2.width
      = (h264_prepare_rgb_buffer realloc1 h264 width height).2.width ∧
    (h264_prepare_rgb_buffer realloc2
        (h264_prepare_rgb_buffer realloc1 h264 width height).2 width height).2.height
      = (h264_prepare_rgb_buffer realloc1 h264 width height).2.height ∧
    (h264_prepare_rgb_buffer realloc2
        (h264_prepare_rgb_buffer realloc1 h264 width height).2 width height).2.scanline
      = (h264_prepare_rgb_buffer realloc1 h264 width height).2.scanline ∧
    (h264_prepare_rgb_buffer realloc2
        (h264_prepare_rgb_buffer realloc1 h264 width height).2 width height).1
      = (h264_prepare_rgb_buffer realloc1 h264 width height).1 := by
  have hge := (prepare_size_ge realloc1 h264 width height).2
  obtain ⟨a1, a2, a3, _, _, _, _, a8⟩ := prepare_fields realloc1 h264 width height
  obtain ⟨b1, b2, b3, _, _, _, b7, b8⟩ := prepare_fields realloc2
    (h264_prepare_rgb_buffer realloc1 h264 width height).2 width height
  obtain ⟨e1, e2⟩ := b7 (by omega)
  refine ⟨e1, e2, by rw [b1, a1], by rw [b2, a2], by rw [b3, a3], ?_⟩
  rw [b8, a8, e1]

/-- C16: the capacity `size` never decreases.  A call of
`h264_prepare_rgb_buffer` leaves a capacity at least the one before it; so
does a call of `h264_decompress`, successful or failing; hence in every
finite sequence of such calls with arbitrary arguments and allocator
behaviour the capacity after each call is at least the capacity before that
call, and the final capacity is at least the initial one. -/
theorem capacity_never_decreases {σ : Type}
    (DecodeFrame2 : σ → Option (Mem × Nat) → DecodeOutput → σ × DecodeOutput) :
    (∀ (realloc : Nat → Int → Nat) (c : H264_CONTEXT) (width height : Int),
      c.size ≤ (h264_prepare_rgb_buffer realloc c width height).2.size) ∧
    (∀ (malloc : Int → Nat) (realloc : Nat → Int → Nat) (c : H264_CONTEXT) (decoder : σ)
      (pSrcData : Mem) (SrcSize : Nat) (ppDstData : Nat)
      (DstFormat nDstStep nXDst nYDst nWidth nHeight : Int),
      c.size ≤ ((h264_decompress DecodeFrame2 malloc realloc (some c) decoder pSrcData SrcSize
        ppDstData DstFormat nDstStep nXDst nYDst nWidth nHeight).h264.getD c).size) ∧
    (∀ (s : H264_CONTEXT × σ) (pre : List Call) (call : Call),
      (runCalls DecodeFrame2 s pre).1.size
        ≤ (runCalls DecodeFrame2 s (pre ++ [call])).1.size) ∧
    (∀ (s : H264_CONTEXT × σ) (calls : List Call),
      s.1.size ≤ (runCalls DecodeFrame2 s calls).1.size) := by
  have hprep : ∀ (realloc : Nat → Int → Nat) (c : H264_CONTEXT) (width height : Int),
      c.size ≤ (h264_prepare_rgb_buffer realloc c width height).2.size :=
    fun realloc c width height => (prepare_size_ge realloc c width height).1
  have hdec : ∀ (malloc : Int → Nat) (realloc : Nat → Int → Nat) (c : H264_CONTEXT)
      (decoder : σ) (pSrcData : Mem) (SrcSize : Nat) (ppDstData : Nat)
      (DstFormat nDstStep nXDst nYDst nWidth nHeight : Int),
      c.size ≤ ((h264_decompress DecodeFrame2 malloc realloc (some c) decoder pSrcData SrcSize
        ppDstData DstFormat nDstStep nXDst nYDst nWidth nHeight).h264.getD c).size := by
    intro malloc realloc c decoder pSrcData SrcSize ppDstData DstFormat nDstStep nXDst nYDst
      nWidth nHeight
    obtain ⟨prep, E, hp, _, o1, o2, o3⟩ := decompress_outcome DecodeFrame2 malloc realloc c
      decoder pSrcData SrcSize ppDstData DstFormat nDstStep nXDst nYDst nWidth nHeight
    have hps : c.size ≤ prep.2.size := by rw [hp]; exact hprep _ _ _ _
    by_cases e : E
    · rw [(o1 e).2]; exact le_refl _
    · by_cases p : prep.1 < 0
      · rw [(o2 e p).2]; exact hps
      · obtain ⟨_, ctx, hctx, _, _, _, _, hsz⟩ := o3 e p
        rw [hctx]
        show c.size ≤ ctx.size
        rw [hsz]; exact hps
  have hstep : ∀ (s : H264_CONTEXT × σ) (call : Call),
      s.1.size ≤ (runCall DecodeFrame2 s call).1.size := by
    intro s call
    obtain ⟨c, d⟩ := s
    cases call with
    | prepare realloc width height => exact hprep realloc c width height
    | decompress malloc realloc pSrcData SrcSize ppDstData DstFormat nDstStep nXDst nYDst
        nWidth nHeight =>
      exact hdec malloc realloc c d pSrcData SrcSize ppDstData DstFormat nDstStep nXDst nYDst
        nWidth nHeight
  have hsnoc : ∀ (s : H264_CONTEXT × σ) (pre : List Call) (call : Call),
      runCalls DecodeFrame2 s (pre ++ [call])
        = runCall DecodeFrame2 (runCalls DecodeFrame2 s pre) call := by
    intro s pre call
    simp only [runCalls, List.foldl_append, List.foldl_cons, List.foldl_nil]
  refine ⟨hprep, hdec, fun s pre call => ?_, fun s calls => ?_⟩
  · rw [hsnoc]; exact hstep _ _
  · induction calls using List.reverseRecOn with
    | nil => exact le_refl _
    | append_singleton pre call ih =>
      rw [hsnoc]
      exact le_trans ih (hstep _ _)

/-- C17 (amended): for every context state, every width with `0 ≤ width` and
`4 * width` representable as a signed 32-bit integer, and every height with
`0 ≤ height < 2^31`, after `h264_prepare_rgb_buffer` returns (whether it
reallocated, reused the buffer or signalled failure) the context has
`width` and `height` equal to the arguments and `scanline = width * 4`. -/
theorem prepare_sets_dimensions (realloc : Nat → Int → Nat) (h264 : H264_CONTEXT)
    (width height : Int) (hw0 : 0 ≤ width) (hw : 4 * width < 2147483648)
    (hh0 : 0 ≤ height) (hh : height < 2147483648) :
    (h264_prepare_rgb_buffer realloc h264 width height).2.width = width ∧
    (h264_prepare_rgb_buffer realloc h264 width height).2.height = height ∧
    (h264_prepare_rgb_buffer realloc h264 width height).2.scanline = width * 4 := by
  obtain ⟨f1, f2, f3, _⟩ := prepare_fields realloc h264 width height
  rw [wrapU32_of_range width hw0 (by omega)] at f1 f3
  rw [wrapU32_of_range height hh0 (by omega)] at f2
  rw [wrapS32_of_range (width * 4) (by omega) (by omega)] at f3
  exact ⟨f1, f2, f3⟩

/-- Witness of C17 (amended): 640x480 with an allocator that fails. -/
theorem prepare_sets_dimensions_witness :
    ((0 : Int) ≤ 640 ∧ (4 : Int) * 640 < 2147483648 ∧ (0 : Int) ≤ 480 ∧
      (480 : Int) < 2147483648) ∧
    (h264_prepare_rgb_buffer failingRealloc context256 640 480).2.width = 640 ∧
    (h264_prepare_rgb_buffer failingRealloc context256 640 480).2.height = 480 ∧
    (h264_prepare_rgb_buffer failingRealloc context256 640 480).2.scanline = 640 * 4 :=
  ⟨by decide,
    prepare_sets_dimensions failingRealloc context256 640 480 (by decide) (by decide)
      (by decide) (by decide)⟩

/-- Counterexample to C17 as stated: for `width = 1073741824`, `height = 1`
the call returns 1 and leaves `scanline = 0`, not `width * 4 = 4294967296`. -/
theorem prepare_scanline_wraps :
    (h264_prepare_rgb_buffer movingRealloc context256 1073741824 1).1 = 1 ∧
    (h264_prepare_rgb_buffer movingRealloc context256 1073741824 1).2.width = 1073741824 ∧
    (h264_prepare_rgb_buffer movingRealloc context256 1073741824 1).2.scanline = 0 ∧
    (h264_prepare_rgb_buffer movingRealloc context256 1073741824 1).2.scanline
      ≠ 1073741824 * 4 := by
  decide

/-- Consequence of the above for decoding: when two consecutive calls of
`h264_decompress` both return 1 and the decoder reports the same dimensions
for both, the second call keeps the buffer pointer and the capacity the first
call left. -/
theorem decompress_twice_same_buffer {σ : Type}
    (DecodeFrame2 : σ → Option (Mem × Nat) → DecodeOutput → σ × DecodeOutput)
    (malloc1 malloc2 : Int → Nat) (realloc1 realloc2 : Nat → Int → Nat)
    (c ctx1 ctx2 : H264_CONTEXT) (decoder1 decoder2 : σ)
    (pSrcData1 pSrcData2 : Mem) (SrcSize1 SrcSize2 ppDstData1 ppDstData2 : Nat)
    (DstFormat1 nDstStep1 nXDst1 nYDst1 nWidth1 nHeight1 : Int)
    (DstFormat2 nDstStep2 nXDst2 nYDst2 nWidth2 nHeight2 : Int)
    (hr1 : (h264_decompress DecodeFrame2 malloc1 realloc1 (some c) decoder1 pSrcData1 SrcSize1
      ppDstData1 DstFormat1 nDstStep1 nXDst1 nYDst1 nWidth1 nHeight1).ret = 1)
    (hc1 : (h264_decompress DecodeFrame2 malloc1 realloc1 (some c) decoder1 pSrcData1 SrcSize1
      ppDstData1 DstFormat1 nDstStep1 nXDst1 nYDst1 nWidth1 nHeight1).h264 = some ctx1)
    (hr2 : (h264_decompress DecodeFrame2 malloc2 realloc2 (some ctx1) decoder2 pSrcData2
      SrcSize2 ppDstData2 DstFormat2 nDstStep2 nXDst2 nYDst2 nWidth2 nHeight2).ret = 1)
    (hc2 : (h264_decompress DecodeFrame2 malloc2 realloc2 (some ctx1) decoder2 pSrcData2
      SrcSize2 ppDstData2 DstFormat2 nDstStep2 nXDst2 nYDst2 nWidth2 nHeight2).h264
        = some ctx2)
    (hW : (reportedOutput DecodeFrame2 decoder2 pSrcData2 SrcSize2).iWidth
      = (reportedOutput DecodeFrame2 decoder1 pSrcData1 SrcSize1).iWidth)
    (hH : (reportedOutput DecodeFrame2 decoder2 pSrcData2 SrcSize2).iHeight
      = (reportedOutput DecodeFrame2 decoder1 pSrcData1 SrcSize1).iHeight) :
    ctx2.data = ctx1.data ∧ ctx2.size = ctx1.size := by
  have hneg : ¬ ((-1 : Int) = 1) := by decide
  obtain ⟨prep1, E1, hp1, _, a1, a2, a3⟩ := decompress_outcome DecodeFrame2 malloc1 realloc1 c
    decoder1 pSrcData1 SrcSize1 ppDstData1 DstFormat1 nDstStep1 nXDst1 nYDst1 nWidth1 nHeight1
  obtain ⟨prep2, E2, hp2, _, b1, b2, b3⟩ := decompress_outcome DecodeFrame2 malloc2 realloc2
    ctx1 decoder2 pSrcData2 SrcSize2 ppDstData2 DstFormat2 nDstStep2 nXDst2 nYDst2 nWidth2
    nHeight2
  rw [hW, hH] at hp2
  generalize (reportedOutput DecodeFrame2 decoder1 pSrcData1 SrcSize1).iWidth = W at hp1 hp2
  generalize (reportedOutput DecodeFrame2 decoder1 pSrcData1 SrcSize1).iHeight = H at hp1 hp2
  rw [hr1, hc1] at a1 a2 a3
  rw [hr2, hc2] at b1 b2 b3
  have e1 : ¬ E1 := fun e => hneg (a1 e).1.symm
  have p1 : ¬ prep1.1 < 0 := fun p => hneg (a2 e1 p).1.symm
  have e2 : ¬ E2 := fun e => hneg (b1 e).1.symm
  have p2 : ¬ prep2.1 < 0 := fun p => hneg (b2 e2 p).1.symm
  obtain ⟨_, x1, hx1, _, _, _, d1, s1⟩ := a3 e1 p1
  obtain ⟨_, x2, hx2, _, _, _, d2, s2⟩ := b3 e2 p2
  have i1 : ctx1 = x1 := Option.some.inj hx1
  have i2 : ctx2 = x2 := Option.some.inj hx2
  subst i1 i2
  have hge := (prepare_size_ge realloc1 c W H).2
  rw [← hp1, ← s1] at hge
  obtain ⟨_, _, _, _, _, _, f7, _⟩ := prepare_fields realloc2 ctx1 W H
  rw [← hp2] at f7
  obtain ⟨g1, g2⟩ := f7 (by omega)
  exact ⟨by rw [d2, g1], by rw [s2, g2]⟩

end H264
